import Mathlib

/-!
Verification development for the sealeye command-line framework.

The definitions below are a shallow embedding of the engine in the newer of
the two engine evolutions in the repository (the `runSubcommand` function and
its helpers): struct-tag driven option discovery with embedded-group
shadowing, the ordered default chain (environment variable, terminal
detection, literal), filesystem requirement checks on string options, the
left-to-right argument scanner with subcommand recursion, and the post-scan
help/handler dispatch.  External collaborators (markdown rendering, column
alignment, the concrete terminal probe, the environment, the filesystem)
are parameters of the model.
-/

namespace Sealeye

/-- Option/field values: the three supported scalar kinds. -/
inductive Val where
  | vb : Bool → Val
  | vi : Int → Val
  | vs : String → Val
deriving DecidableEq, Repr

/-- Character list of a string (Go treats args as byte strings; all inputs of
interest are ASCII, so chars are a faithful stand-in for bytes). -/
def strChars (s : String) : List Char := s.data

/-- Auxiliary loop for `splitComma`. -/
def splitCommaAux : List Char → List Char → List String
  | [], acc => [String.mk acc.reverse]
  | c :: cs, acc =>
    if c = ',' then String.mk acc.reverse :: splitCommaAux cs []
    else splitCommaAux cs (c :: acc)

/-- Model of Go `strings.Split(s, ",")`: splitting the empty string yields
`[""]`, and separators at the ends yield empty fields. -/
def splitComma (s : String) : List String := splitCommaAux s.data []

/-- Model of Go `strings.HasPrefix`. -/
def hasPref (s p : String) : Bool := p.data.isPrefixOf s.data

/-- Model of Go byte-slicing `s[n:]` for ASCII strings. -/
def dropStr (s : String) (n : Nat) : String := String.mk (s.data.drop n)

/-- True when the string is nonempty and its first byte is `-`
(the scanner's `len(arg) > 0 && arg[0] == '-'` test). -/
def headDash (s : String) : Bool :=
  match s.data with
  | '-' :: _ => true
  | _ => false

/-- The scanner's legacy retry test `len(arg) > 1 && arg[1] != '-'`. -/
def secondNotDash (s : String) : Bool :=
  match s.data with
  | _ :: c :: _ => decide (c ≠ '-')
  | _ => false

/-- Go `%q` formatting of a plain string (quoting only; the args of interest
contain no characters needing escapes). -/
def quo (s : String) : String := "\"" ++ s ++ "\""

/-- Model of Go `strconv.ParseBool`: the exact truthy and falsy tokens. -/
def parseBoolGo (s : String) : Option Bool :=
  if s = "1" ∨ s = "t" ∨ s = "T" ∨ s = "TRUE" ∨ s = "true" ∨ s = "True" then some true
  else if s = "0" ∨ s = "f" ∨ s = "F" ∨ s = "FALSE" ∨ s = "false" ∨ s = "False" then some false
  else none

/-- Digit-list accumulator for `parseIntGo`. -/
def digitsVal : List Char → Nat → Nat
  | [], acc => acc
  | c :: cs, acc => digitsVal cs (acc * 10 + (c.toNat - 48))

/-- Model of Go `strconv.ParseInt(s, 10, 64)`: optional sign, nonempty run of
decimal digits, value within the int64 range; anything else (including
overflow) is an error, rendered here as `none`. -/
def parseIntGo (s : String) : Option Int :=
  let core : List Char → Option Int := fun ds =>
    if ds = [] then none
    else if ds.all Char.isDigit then some (Int.ofNat (digitsVal ds 0))
    else none
  let signed : Option Int :=
    match s.data with
    | '+' :: r => core r
    | '-' :: r => (core r).map Int.neg
    | r => core r
  match signed with
  | some v => if -(2 ^ 63) ≤ v ∧ v ≤ 2 ^ 63 - 1 then some v else none
  | none => none

/-- Model of Go `ast.IsExported`: first character is upper case. -/
def isExportedStr (s : String) : Bool :=
  match s.data with
  | c :: _ => c.isUpper
  | [] => false

mutual

/-- One field of a command-schema struct, as reflection sees it: field name,
the `option`, `help`, `default` and `required` struct tags, the field's kind
rendered as a string (`"bool"`, `"int"`, `"string"`, `"struct"`, or any other
kind name), and, for struct-kinded fields, the embedded group's own fields. -/
inductive StructField where
  | mk : String → String → String → String → String → String → Fields → StructField

/-- A list of fields (a separate inductive so that recursion over the field
tree stays structural). -/
inductive Fields where
  | nil : Fields
  | cons : StructField → Fields → Fields

end

/-- Build a `Fields` sequence from a plain list. -/
def fieldsOf : List StructField → Fields
  | [] => .nil
  | f :: r => .cons f (fieldsOf r)

/-- Field name. -/
def StructField.fname : StructField → String
  | .mk n _ _ _ _ _ _ => n

/-- The `option` struct tag. -/
def StructField.optionTag : StructField → String
  | .mk _ o _ _ _ _ _ => o

/-- The `help` struct tag. -/
def StructField.helpTag : StructField → String
  | .mk _ _ h _ _ _ _ => h

/-- The `default` struct tag. -/
def StructField.defaultTag : StructField → String
  | .mk _ _ _ d _ _ _ => d

/-- The `required` struct tag. -/
def StructField.requiredTag : StructField → String
  | .mk _ _ _ _ r _ _ => r

/-- The reflected kind of the field, as a string. -/
def StructField.kindStr : StructField → String
  | .mk _ _ _ _ _ k _ => k

/-- For struct-kinded fields, the embedded group's fields. -/
def StructField.sub : StructField → Fields
  | .mk _ _ _ _ _ _ s => s

/-- A command-schema node together with its live instance: the reflected
field list, the current field values keyed by (promoted) field name, the
visible and hidden subcommand maps, and the handler. -/
inductive Cli where
  | mk : List StructField → List (String × Val) → List (String × Cli) →
      List (String × Cli) → (List (String × Val) → List String → Int) → Cli

/-- Reflected fields of the node's struct type. -/
def Cli.fields : Cli → List StructField
  | .mk f _ _ _ _ => f

/-- Current field values of the instance. -/
def Cli.vals : Cli → List (String × Val)
  | .mk _ v _ _ _ => v

/-- The visible `Subcommands` map. -/
def Cli.subcommands : Cli → List (String × Cli)
  | .mk _ _ s _ _ => s

/-- The `HiddenSubcommands` map. -/
def Cli.hiddenSubcommands : Cli → List (String × Cli)
  | .mk _ _ _ h _ => h

/-- The handler `Func`, receiving the final field values and `Args`. -/
def Cli.func : Cli → (List (String × Val) → List String → Int)
  | .mk _ _ _ _ f => f

/-- Assoc-list lookup modelling a Go map read (`m[k]`). -/
def lookupStr {α : Type} (k : String) : List (String × α) → Option α
  | [] => none
  | (k', v) :: rest => if k' = k then some v else lookupStr k rest

/-- Overwrite the value stored under a key (a Go `reflect.Value.Set` on the
field bound under that name); keys not present are left untouched. -/
def setVal (k : String) (v : Val) : List (String × Val) → List (String × Val)
  | [] => []
  | (k', v') :: rest =>
    if k' = k then (k', v) :: rest else (k', v') :: setVal k v rest

/-- Model of the environment, the filesystem, and the terminal probe.
`fs p = none` models a `os.Stat` error, `some b` an existing path with
`IsDir() = b`.  `isTerminal` is the value the `isatty` probe would return. -/
structure Ctx where
  env : String → Option String
  fs : String → Option Bool
  isTerminal : Bool

/-- Model of the engine's `reqCheck` closure: the three filesystem
requirements evaluated in source order, producing the source's message for
the first one that fails. -/
def reqCheck (ctx : Ctx) (reqs : List String) (optionName value : String) : Option String :=
  if reqs.contains "dir" ∧ ¬ ctx.fs value = some true then
    some (optionName ++ " " ++ quo value ++ " is not a directory")
  else if reqs.contains "dirorfile" ∧ (ctx.fs value).isNone then
    some (optionName ++ " " ++ quo value ++ " is not a directory or file")
  else if reqs.contains "file" ∧ ¬ ctx.fs value = some false then
    some (optionName ++ " " ++ quo value ++ " is not a file")
  else none

/-- The acceptance condition of the `reqCheck` branch for one requirement
tag: `dir` needs `os.Stat` to succeed with `IsDir()`, `dirorfile` needs
`os.Stat` to succeed, `file` needs `os.Stat` to succeed with `!IsDir()`. -/
def reqAccepts (ctx : Ctx) (req value : String) : Prop :=
  if req = "dir" then ctx.fs value = some true
  else if req = "dirorfile" then (ctx.fs value).isNone = false
  else ctx.fs value = some false

/-- The failure message of the `reqCheck` branch for one requirement tag. -/
def reqFailMsg (req optionName value : String) : String :=
  if req = "dir" then optionName ++ " " ++ quo value ++ " is not a directory"
  else if req = "dirorfile" then optionName ++ " " ++ quo value ++ " is not a directory or file"
  else optionName ++ " " ++ quo value ++ " is not a file"

/-- Join a list of strings with a separator (Go `strings.Join`). -/
def joinSep (sep : String) : List String → String
  | [] => ""
  | [x] => x
  | x :: rest => x ++ sep ++ joinSep sep rest

/-- State threaded through the option extractor and default resolver: the
alias tables (`optionTypes`, the alias-to-field bindings standing for
`optionValues`, `optionReqs`), the live field values, the help-table
accumulators, the per-level memoized terminal probe (`tty`, 0 meaning not yet
probed), the number of terminal probes performed so far, and the diagnostics
written to standard error. -/
structure RState where
  optionTypes : List (String × String)
  optionBinds : List (String × String)
  optionReqs : List (String × List String)
  vals : List (String × Val)
  maxOptionLen : Nat
  optionHelpData : List (List String)
  multiHelpData : List (List String)
  tty : Int
  probes : Nat
  diags : List String
deriving DecidableEq, Repr

/-- Record a diagnostic line. -/
def addDiag (st : RState) (m : String) : RState := { st with diags := st.diags ++ [m] }

/-- Write through an option's binding into the instance's field. -/
def setField (st : RState) (fieldName : String) (v : Val) : RState :=
  { st with vals := setVal fieldName v st.vals }

/-- Result of the extractor/defaulting pass over one field, alias or field
list: success, an error already reported with a failure code (`return 1` in
the source), or a panic. -/
inductive RRes where
  | ok (st : RState)
  | fail (st : RState)
  | panicked (msg : String) (st : RState)
deriving DecidableEq, Repr

mutual

/-- Flatten one reflected field in the traversal order of the source's
`reflectFunc`: a struct-kinded field's embedded group is processed (marked as
embedded) before the field itself. -/
def flattenOne (emb : Bool) : StructField → List (StructField × Bool)
  | .mk n o h d r k s =>
    (if k = "struct" then flattenSub true s else []) ++ [(StructField.mk n o h d r k s, emb)]

/-- Flatten a field sequence, left to right. -/
def flattenSub (emb : Bool) : Fields → List (StructField × Bool)
  | .nil => []
  | .cons f rest => flattenOne emb f ++ flattenSub emb rest

end

/-- Flatten a command level's own field list (the `reflectFunc(type, false)`
entry point's traversal order). -/
def flattenFields : List StructField → List (StructField × Bool)
  | [] => []
  | f :: rest => flattenOne false f ++ flattenFields rest

/-- Classify a reflected field kind into an option type string; `none` is the
source's `panic("cannot handle ...")` case. -/
def classifyKind (k : String) : Option String :=
  if k = "bool" then some "bool"
  else if k = "int" then some "int"
  else if k = "string" then some "string"
  else none

/-- The defaults-help rendering loop of the extractor. -/
def buildDefaultsHelp : List String → List String
  | [] => []
  | d :: rest =>
    if d = "" then buildDefaultsHelp rest
    else if hasPref d "env:" then ("$" ++ dropStr d 4) :: buildDefaultsHelp rest
    else if d = "terminal" then "if terminal" :: buildDefaultsHelp rest
    else d :: buildDefaultsHelp rest

/-- The requirements-help loop of the extractor; an unknown requirement tag
is the source's construction-time panic. -/
def buildReqsHelp : List String → Except String (List String)
  | [] => .ok []
  | r :: rest =>
    if r = "" then buildReqsHelp rest
    else if r = "dir" then (buildReqsHelp rest).map (fun l => "must be a directory" :: l)
    else if r = "dirorfile" then
      (buildReqsHelp rest).map (fun l => "must be a directory or file" :: l)
    else if r = "file" then (buildReqsHelp rest).map (fun l => "must be a file" :: l)
    else .error ("unknown required value: " ++ quo r)

/-- The requirement set recorded under each alias (the `optionReqs` entry);
by the time it is built, unknown tags have already panicked in
`buildReqsHelp`. -/
def buildReqSet (entries : List String) : List String :=
  entries.filter (fun r => r = "dir" ∨ r = "dirorfile" ∨ r = "file")

/-- The `DEFAULTING` loop of the source, run once per alias: evaluate the
ordered default sources first-match-wins, writing through the binding.  An
unparsable environment value or a failed requirement check aborts the level
(`fail`); an unparsable literal is a construction-time panic.  The terminal
source probes the stream only when the per-level memo `tty` is still 0. -/
def applyDefaults (ctx : Ctx) (optionName optionType fieldName : String)
    (reqs : List String) (fullTag : String) : List String → RState → RRes
  | [], st => .ok st
  | dflt :: rest, st =>
    if dflt = "" then applyDefaults ctx optionName optionType fieldName reqs fullTag rest st
    else if hasPref dflt "env:" then
      match ctx.env (dropStr dflt 4) with
      | some envv =>
        if optionType = "bool" then
          match parseBoolGo envv with
          | none => .fail (addDiag st ("invalid boolean " ++ quo envv ++ " for option "
              ++ quo optionName ++ " via $" ++ dropStr dflt 4))
          | some b => .ok (setField st fieldName (.vb b))
        else if optionType = "int" then
          match parseIntGo envv with
          | none => .fail (addDiag st ("invalid integer " ++ quo envv ++ " for option "
              ++ quo optionName ++ " via $" ++ dropStr dflt 4))
          | some n => .ok (setField st fieldName (.vi n))
        else if optionType = "string" then
          match reqCheck ctx reqs optionName envv with
          | some msg => .fail (addDiag st msg)
          | none => .ok (setField st fieldName (.vs envv))
        else .panicked ("sealeye programmer error " ++ optionType) st
      | none => applyDefaults ctx optionName optionType fieldName reqs fullTag rest st
    else if dflt = "terminal" then
      let st1 := if st.tty = 0 then
          { st with tty := if ctx.isTerminal then 1 else -1, probes := st.probes + 1 }
        else st
      .ok (setField st1 fieldName (.vb (st1.tty = 1)))
    else
      if optionType = "bool" then
        match parseBoolGo dflt with
        | none => .panicked ("cannot handle default specification " ++ quo dflt
            ++ " from " ++ quo fullTag) st
        | some b => .ok (setField st fieldName (.vb b))
      else if optionType = "int" then
        match parseIntGo dflt with
        | none => .panicked ("cannot handle default specification " ++ quo dflt
            ++ " from " ++ quo fullTag) st
        | some n => .ok (setField st fieldName (.vi n))
      else if optionType = "string" then
        match reqCheck ctx reqs optionName dflt with
        | some msg => .fail (addDiag st msg)
        | none => .ok (setField st fieldName (.vs dflt))
      else .panicked ("sealeye programmer error " ++ optionType) st

/-- Result of the per-field alias loop: on success it also carries the
rendered help names accumulated for the field. -/
inductive ARes where
  | ok (st : RState) (names : List String)
  | fail (st : RState)
  | panicked (msg : String) (st : RState)

/-- Normalize a raw alias: a single character gets a single dash, anything
longer a double dash. -/
def normAlias (a : String) : String := if a.length = 1 then "-" ++ a else "--" ++ a

/-- The alias loop of the extractor: register each nonempty alias in the
tables and run the `DEFAULTING` chain for it. -/
def processAliases (ctx : Ctx) (optionType : String) (reqSet : List String)
    (fieldName fullTag : String) (dflts : List String) :
    List String → RState → List String → ARes
  | [], st, names => .ok st names
  | a :: rest, st, names =>
    if a = "" then processAliases ctx optionType reqSet fieldName fullTag dflts rest st names
    else
      let optionName := normAlias a
      let helpName := optionName ++
        (if optionType = "int" then " n" else if optionType = "string" then " s" else "")
      let st1 := { st with
        maxOptionLen := max st.maxOptionLen helpName.length,
        optionTypes := (optionName, optionType) :: st.optionTypes,
        optionBinds := (optionName, fieldName) :: st.optionBinds,
        optionReqs := (optionName, reqSet) :: st.optionReqs }
      match applyDefaults ctx optionName optionType fieldName reqSet fullTag dflts st1 with
      | .ok st2 =>
        processAliases ctx optionType reqSet fieldName fullTag dflts rest st2 (names ++ [helpName])
      | .fail st2 => .fail st2
      | .panicked m st2 => .panicked m st2

/-- Append the field's help row: a lone `--all-help` row is suppressed when
the level has no subcommand table; short boolean alias lists stay on one row,
anything else goes to the wrapped (multiline) rows. -/
def appendHelpRow (subsNonNil : Bool) (optionType : String) (names : List String)
    (txt : String) (st : RState) : RState :=
  match names with
  | [name0] =>
    if name0 ≠ "--all-help" ∨ subsNonNil = true then
      { st with optionHelpData := st.optionHelpData ++ [["", name0, txt]] }
    else st
  | _ =>
    if optionType = "bool" ∧ (joinSep " " names).length < 15 then
      { st with optionHelpData := st.optionHelpData ++ [["", joinSep " " names, txt]] }
    else
      { st with multiHelpData := st.multiHelpData ++ [["", joinSep "\n" names, txt]] }

/-- Process one flattened field: the embedded-override skip, the export and
option-tag filters, kind classification, help fragments, the alias loop and
the help row. -/
def reflectField (ctx : Ctx) (topFields : List String) (subsNonNil : Bool)
    (fld : StructField) (emb : Bool) (st : RState) : RRes :=
  if emb = true ∧ topFields.contains fld.fname then .ok st
  else if ¬ isExportedStr fld.fname = true then .ok st
  else if fld.optionTag = "" then .ok st
  else
    match classifyKind fld.kindStr with
    | none => .panicked ("cannot handle " ++ fld.fname ++ " " ++ fld.kindStr) st
    | some optionType =>
      let defaultsHelp := buildDefaultsHelp (splitComma fld.defaultTag)
      match buildReqsHelp (splitComma fld.requiredTag) with
      | .error msg => .panicked msg st
      | .ok reqsHelp =>
        let reqSet := buildReqSet (splitComma fld.requiredTag)
        match processAliases ctx optionType reqSet fld.fname fld.defaultTag
            (splitComma fld.defaultTag) (splitComma fld.optionTag) st [] with
        | .fail stA => .fail stA
        | .panicked m stA => .panicked m stA
        | .ok stA names =>
          let txt := fld.helpTag
            ++ (if reqsHelp ≠ [] then " Requirements: " ++ joinSep ", " reqsHelp else "")
            ++ (if defaultsHelp ≠ [] then " Default: " ++ joinSep ", " defaultsHelp else "")
          .ok (appendHelpRow subsNonNil optionType names txt stA)

/-- Fold `reflectField` over the flattened field sequence, propagating the
first error or panic. -/
def reflectFold (ctx : Ctx) (topFields : List String) (subsNonNil : Bool) :
    List (StructField × Bool) → RState → RRes
  | [], st => .ok st
  | (f, emb) :: rest, st =>
    match reflectField ctx topFields subsNonNil f emb st with
    | .ok stA => reflectFold ctx topFields subsNonNil rest stA
    | e => e

/-- Fresh extractor state for a command level. -/
def initRState (cli : Cli) : RState :=
  { optionTypes := [], optionBinds := [], optionReqs := [], vals := cli.vals,
    maxOptionLen := 0, optionHelpData := [], multiHelpData := [], tty := 0,
    probes := 0, diags := [] }

/-- The whole extractor/defaulting pass for one command level (the source's
`reflectFunc(reflectValue.Type(), false)` call). -/
def runReflect (ctx : Ctx) (cli : Cli) : RRes :=
  reflectFold ctx (cli.fields.map StructField.fname) (!cli.subcommands.isEmpty)
    (flattenFields cli.fields) (initRState cli)

/-- Alias resolution for a dash-prefixed token: exact table lookup, then the
single-dash legacy retry (rewriting the token), then the synthetic
`--all-help` conversion to `--help`.  Returns the (possibly rewritten) token
together with its option type, `none` standing for the Go map's missing-key
zero value. -/
def resolveAlias (types : List (String × String)) (arg : String) : String × Option String :=
  match lookupStr arg types with
  | some t => (arg, some t)
  | none =>
    let arg1 := if secondNotDash arg then "-" ++ arg else arg
    match lookupStr arg1 types with
    | some t => (arg1, some t)
    | none =>
      if arg1 = "--all-help" then ("--help", lookupStr "--help" types) else (arg1, none)

/-- Write a value through an alias's binding (`optionValues[arg].Set...`);
the missing-binding branch is unreachable when the tables were built by the
extractor, which registers types and bindings together. -/
def setOpt (st : RState) (optName : String) (v : Val) : RState :=
  match lookupStr optName st.optionBinds with
  | some f => setField st f v
  | none => st

/-- Result of scanning a level's token list: the loop ran to completion with
the collected positional sink, aborted with a reported error, or reached a
token naming a subcommand to dispatch to with the remaining tokens. -/
inductive ScanStep where
  | done (st : RState) (remaining : List String)
  | errored (st : RState)
  | dispatchTo (cname : String) (rest : List String) (st : RState)
deriving DecidableEq, Repr

/-- Modelled from the spec (in part): engine support for the
`HiddenSubcommands` map is not among the engine sources; only its declaration
and a caller registering a hidden subcommand appear, and the spec states that
hidden subcommands are excluded from the rendered subcommand table but still
dispatchable.  Dispatch therefore consults the visible map and then the
hidden one; everything else here follows the source's `subcommands[arg]`
lookup. -/
def dispatchLookup (cli : Cli) (arg : String) : Option Cli :=
  match lookupStr arg cli.subcommands with
  | some c => some c
  | none => lookupStr arg cli.hiddenSubcommands

/-- Result of processing one token of the scanner loop: stop the loop with a
final `ScanStep`, continue with the next token, or continue after consuming
the following token as this option's value. -/
inductive StepRes where
  | stop (s : ScanStep)
  | cont1 (st : RState) (noMore : Bool) (remaining : List String)
  | cont2 (st : RState) (remaining : List String)

/-- One iteration of the scanner loop of `runSubcommand`, mirroring the
source's branch order: the `noMore` branch first, then the dash branch with
alias resolution, the (dead, see the terminator results below) `--` branch,
and the plain-token branch that either dispatches to a subcommand or appends
to the positional sink. -/
def scanStep (ctx : Ctx) (cli : Cli) (st : RState) (noMore : Bool)
    (remaining : List String) (arg : String) (rest : List String) : StepRes :=
  if noMore then
    if (dispatchLookup cli arg).isSome then .stop (.dispatchTo arg rest st)
    else .cont1 st noMore (remaining ++ [arg])
  else if headDash arg then
    match resolveAlias st.optionTypes arg with
    | (arg1, rty) =>
    if rty = some "bool" then .cont1 (setOpt st arg1 (.vb true)) noMore remaining
    else if rty = some "int" then
      (rest.head?).elim (.stop (.errored (addDiag st ("no value given for option " ++ quo arg1))))
        (fun v => (parseIntGo v).elim
          (.stop (.errored (addDiag st ("invalid int " ++ quo v ++ " for option " ++ quo arg1))))
          (fun n => .cont2 (setOpt st arg1 (.vi n)) remaining))
    else if rty = some "string" then
      (rest.head?).elim (.stop (.errored (addDiag st ("no value given for option " ++ quo arg1))))
        (fun v => (reqCheck ctx ((lookupStr arg1 st.optionReqs).getD []) arg1 v).elim
          (.cont2 (setOpt st arg1 (.vs v)) remaining)
          (fun msg => .stop (.errored (addDiag st msg))))
    else
      if hasPref arg1 "--no-" ∧ lookupStr ("--" ++ dropStr arg1 5) st.optionTypes = some "bool" then
        .cont1 (setOpt st ("--" ++ dropStr arg1 5) (.vb false)) noMore remaining
      else .stop (.errored (addDiag st ("unknown option " ++ quo arg1)))
  else if arg = "--" then .cont1 st true remaining
  else
    if (dispatchLookup cli arg).isSome then .stop (.dispatchTo arg rest st)
    else .cont1 st noMore (remaining ++ [arg])

/-- The scanner loop of `runSubcommand`: left to right over the tokens,
one `scanStep` per token.  The empty-`rest` alternative of the value-consuming
continuation is unreachable (`scanStep` only answers `cont2` after reading
`rest.head?`). -/
def scanTokens (ctx : Ctx) (cli : Cli) (st : RState) (noMore : Bool)
    (remaining : List String) (toks : List String) : ScanStep :=
  match toks with
  | [] => .done st remaining
  | arg :: rest =>
    match scanStep ctx cli st noMore remaining arg rest with
    | .stop s => s
    | .cont1 stA nmA remA => scanTokens ctx cli stA nmA remA rest
    | .cont2 stA remA =>
      match rest with
      | [] => .done stA remA
      | _ :: rest2 => scanTokens ctx cli stA noMore remA rest2

/-- Byte-wise lexicographic comparison of strings (Go `sort.Strings` order;
the names of interest are ASCII). -/
def charListLe : List Char → List Char → Bool
  | [], _ => true
  | _ :: _, [] => false
  | a :: as, b :: bs => if a = b then charListLe as bs else decide (a.toNat < b.toNat)

/-- String comparison for sorting subcommand names. -/
def strLe (a b : String) : Bool := charListLe a.data b.data

/-- Insertion step of the sort. -/
def insertStr (x : String) : List String → List String
  | [] => [x]
  | y :: ys => if strLe x y then x :: y :: ys else y :: insertStr x ys

/-- Sort a list of names (Go `sort.Strings`). -/
def sortStrings : List String → List String
  | [] => []
  | x :: xs => insertStr x (sortStrings xs)

/-- The names listed in the rendered subcommand table of a level's help:
the visible subcommands, alphabetically. -/
def subcommandTable (cli : Cli) : List String :=
  sortStrings (cli.subcommands.map Prod.fst)

/-- Result of running one top-level invocation (or a dispatched subtree):
the exit code, the diagnostics written to standard error, the total number of
terminal probes performed, the finished level's final field values and its
`Args` field (`none` when the level aborted before setting it), and a panic
marker for construction-time errors. -/
structure Outcome where
  code : Int
  diags : List String
  probes : Nat
  vals : List (String × Val)
  argsField : Option (List String)
  panicMsg : Option String
deriving Repr

/-- Looking a key up in an association list lands on a strictly smaller
element. -/
def sizeOf_lookupStr_lt {l : List (String × Cli)} {k : String} {c : Cli}
    (h : lookupStr k l = some c) : sizeOf c < sizeOf l := by
  induction l with
  | nil => simp [lookupStr] at h
  | cons p rest ih =>
    obtain ⟨k', v⟩ := p
    by_cases hk : k' = k
    · simp [lookupStr, hk] at h
      subst h
      simp
      omega
    · simp [lookupStr, hk] at h
      have := ih h
      simp
      omega

/-- A dispatched child schema is structurally smaller than its parent. -/
def sizeOf_dispatch_lt {cli : Cli} {arg : String} {c : Cli}
    (h : dispatchLookup cli arg = some c) : sizeOf c < sizeOf cli := by
  cases cli with
  | mk f v s hsub fn =>
    unfold dispatchLookup at h
    simp only [Cli.subcommands, Cli.hiddenSubcommands] at h
    cases hs : lookupStr arg s with
    | some c0 =>
      rw [hs] at h
      simp at h
      subst h
      have := sizeOf_lookupStr_lt hs
      simp
      omega
    | none =>
      rw [hs] at h
      simp at h
      have := sizeOf_lookupStr_lt h
      simp
      omega

/-- A visible subcommand is structurally smaller than its parent. -/
def sizeOf_sub_lt {cli : Cli} {n : String} {c : Cli}
    (h : lookupStr n cli.subcommands = some c) : sizeOf c < sizeOf cli := by
  cases cli with
  | mk f v s hsub fn =>
    simp only [Cli.subcommands] at h
    have := sizeOf_lookupStr_lt h
    simp
    omega

mutual

/-- The whole pipeline for one command level, the model of the source's
`runSubcommand`: run the extractor/defaulting pass, scan the tokens, and
either propagate a dispatched subcommand's outcome (accumulating diagnostics
and probe counts), or set the `Args` field and run the all-help/help/handler
tail. -/
def runSubcommand (ctx : Ctx) (name : String) (cli : Cli) (args : List String) : Outcome :=
  match runReflect ctx cli with
  | .panicked m st =>
    { code := 0, diags := st.diags, probes := st.probes, vals := st.vals,
      argsField := none, panicMsg := some m }
  | .fail st =>
    { code := 1, diags := st.diags, probes := st.probes, vals := st.vals,
      argsField := none, panicMsg := none }
  | .ok st =>
    match scanTokens ctx cli st false [] args with
    | .errored stA =>
      { code := 1, diags := stA.diags, probes := stA.probes, vals := stA.vals,
        argsField := none, panicMsg := none }
    | .dispatchTo cname rest stA =>
      match hd : dispatchLookup cli cname with
      | some child =>
        have hlt : sizeOf child < sizeOf cli := sizeOf_dispatch_lt hd
        let o := runSubcommand ctx (name ++ " " ++ cname) child rest
        { o with probes := stA.probes + o.probes, diags := stA.diags ++ o.diags }
      | none =>
        { code := 0, diags := stA.diags, probes := stA.probes, vals := stA.vals,
          argsField := none, panicMsg := some "unreachable dispatch" }
    | .done stA remaining =>
      if lookupStr "AllHelpOption" stA.vals = some (.vb true) then
        let pd := allHelpLoop ctx name cli (sortStrings (cli.subcommands.map Prod.fst))
        { code := 1, diags := stA.diags ++ pd.2, probes := stA.probes + pd.1,
          vals := stA.vals, argsField := some remaining, panicMsg := none }
      else if lookupStr "HelpOption" stA.vals = some (.vb true) then
        { code := 1, diags := stA.diags, probes := stA.probes, vals := stA.vals,
          argsField := some remaining, panicMsg := none }
      else
        { code := cli.func stA.vals remaining, diags := stA.diags, probes := stA.probes,
          vals := stA.vals, argsField := some remaining, panicMsg := none }
  termination_by (sizeOf cli, 1, 0)

/-- The all-help tail: recursively render every visible subcommand's full
help, in alphabetical order, collecting the probes and diagnostics those
recursive invocations produce. -/
def allHelpLoop (ctx : Ctx) (name : String) (cli : Cli) (names : List String) :
    Nat × List String :=
  match names with
  | [] => (0, [])
  | n :: ns =>
    match hn : lookupStr n cli.subcommands with
    | some child =>
      have hlt : sizeOf child < sizeOf cli := sizeOf_sub_lt hn
      let o := runSubcommand ctx (name ++ " " ++ n) child ["--all-help"]
      let pd := allHelpLoop ctx name cli ns
      (o.probes + pd.1, o.diags ++ pd.2)
    | none => allHelpLoop ctx name cli ns
  termination_by (sizeOf cli, 0, names.length)

end

/-! Branch facts for single scanner steps, used to instantiate the claims. -/

/-- A command level declaring a single option field, parametric in all its
tags; used to instantiate per-option claims. -/
def oneOptCli (fieldName aliasTag dfltTag reqTag kindStr : String) (v0 : Val)
    (fn : List (String × Val) → List String → Int) : Cli :=
  Cli.mk [StructField.mk fieldName aliasTag "" dfltTag reqTag kindStr .nil]
    [(fieldName, v0)] [] [] fn

/-- The rendered help name of the single option. -/
def oneOptHelpName (aliasTag kindStr : String) : String :=
  normAlias aliasTag ++ (if kindStr = "int" then " n" else if kindStr = "string" then " s" else "")

/-- The extractor state right after registering the single option's alias,
before its default chain runs. -/
def oneOptSt1 (fieldName aliasTag reqTag kindStr : String) (v0 : Val) : RState :=
  { optionTypes := [(normAlias aliasTag, kindStr)],
    optionBinds := [(normAlias aliasTag, fieldName)],
    optionReqs := [(normAlias aliasTag, buildReqSet (splitComma reqTag))],
    vals := [(fieldName, v0)],
    maxOptionLen := max 0 (oneOptHelpName aliasTag kindStr).length,
    optionHelpData := [], multiHelpData := [], tty := 0, probes := 0, diags := [] }

/-- Parse a raw string per the declared option kind, as the default resolver
and scanner do. -/
def parseByKind (k s : String) : Option Val :=
  if k = "bool" then (parseBoolGo s).map Val.vb
  else if k = "int" then (parseIntGo s).map Val.vi
  else if k = "string" then some (.vs s)
  else none

def ctxC1 : Ctx := ⟨fun s => if s = "COUNT" then some "5" else none, fun _ => none, false⟩

def ctxC1b : Ctx := ⟨fun _ => none, fun _ => none, false⟩

/-- Context with empty environment and filesystem, no terminal. -/
def ctxPlain : Ctx := ⟨fun _ => none, fun _ => none, false⟩

/-- A level with one boolean option `-x` and a handler returning 0. -/
def cliX : Cli := Cli.mk
  [StructField.mk "Xflag" "x" "An example flag." "" "" "bool" .nil]
  [("Xflag", .vb false)] [] [] (fun _ _ => 0)

/-- A level declaring only an ordinary boolean help option under `--help`,
with no subcommand table. -/
def cliHelpOnly : Cli := Cli.mk
  [StructField.mk "HelpOption" "help" "Outputs this help text." "" "" "bool" .nil]
  [("HelpOption", .vb false)] [] [] (fun _ _ => 0)

def st8 : RState :=
  { optionTypes := [("--help", "bool")], optionBinds := [("--help", "HelpOption")],
    optionReqs := [], vals := [("HelpOption", .vb false)], maxOptionLen := 0,
    optionHelpData := [], multiHelpData := [], tty := 0, probes := 0, diags := [] }

/-- A level with one integer option `--count`. -/
def cliInt : Cli := Cli.mk
  [StructField.mk "Count" "count" "An example count." "" "" "int" .nil]
  [("Count", .vi 0)] [] [] (fun _ _ => 0)

/-- The extractor state of `cliInt` after discovery and defaulting. -/
def stInt : RState :=
  { optionTypes := [("--count", "int")],
    optionBinds := [("--count", "Count")],
    optionReqs := [("--count", [])],
    vals := [("Count", Val.vi 0)],
    maxOptionLen := 9,
    optionHelpData := [["", "--count n", "An example count."]],
    multiHelpData := [],
    tty := 0,
    probes := 0,
    diags := [] }

/-- A parent level with no options and one hidden subcommand. -/
def cliPar : Cli := Cli.mk [] [] [] [("hid", cliX)] (fun _ _ => 1)

def ctxC4 : Ctx := ⟨fun s => if s = "GLH" then some "/nope" else none, fun _ => none, false⟩

def ctx6 : Ctx := ⟨fun _ => none, fun _ => none, true⟩

/-- A subcommand level with one boolean option defaulting to the terminal
probe. -/
def sub6 : Cli := Cli.mk
  [StructField.mk "Color2" "color2" "" "terminal" "" "bool" .nil]
  [("Color2", .vb false)] [] [] (fun _ _ => 0)

/-- A root level with one terminal-defaulted boolean option and the `sub`
subcommand. -/
def root6 : Cli := Cli.mk
  [StructField.mk "Color" "color" "" "terminal" "" "bool" .nil]
  [("Color", .vb false)] [("sub", sub6)] [] (fun _ _ => 0)

/-- A schema whose embedded group declares a field that the top level also
declares: group first, then the directly declared field. -/
def cliShadowA (n aliasN aliasD helpN helpD kN kD : String) (v0 : Val)
    (fn : List (String × Val) → List String → Int) : Cli :=
  Cli.mk [StructField.mk "Group" "" "" "" "" "struct"
      (fieldsOf [StructField.mk n aliasN helpN "" "" kN .nil]),
    StructField.mk n aliasD helpD "" "" kD .nil]
    [(n, v0)] [] [] fn

/-- The same schema with the directly declared field first and the embedded
group after it. -/
def cliShadowB (n aliasN aliasD helpN helpD kN kD : String) (v0 : Val)
    (fn : List (String × Val) → List String → Int) : Cli :=
  Cli.mk [StructField.mk n aliasD helpD "" "" kD .nil,
    StructField.mk "Group" "" "" "" "" "struct"
      (fieldsOf [StructField.mk n aliasN helpN "" "" kN .nil])]
    [(n, v0)] [] [] fn

theorem resolveAlias_found {types : List (String × String)} {arg : String} {t : String}
    (h : lookupStr arg types = some t) : resolveAlias types arg = (arg, some t) := by
  simp [resolveAlias, h]

theorem scanStep_boolCase {ctx : Ctx} {cli : Cli} {st : RState} {rem : List String}
    {arg : String} {rest : List String} {a1 : String}
    (hhd : headDash arg = true)
    (hres : resolveAlias st.optionTypes arg = (a1, some "bool")) :
    scanStep ctx cli st false rem arg rest = .cont1 (setOpt st a1 (.vb true)) false rem := by
  simp [scanStep, hhd, hres]

theorem scanStep_intNoValue {ctx : Ctx} {cli : Cli} {st : RState} {rem : List String}
    {arg : String} {a1 : String}
    (hhd : headDash arg = true)
    (hres : resolveAlias st.optionTypes arg = (a1, some "int")) :
    scanStep ctx cli st false rem arg [] =
      .stop (.errored (addDiag st ("no value given for option " ++ quo a1))) := by
  simp [scanStep, hhd, hres, Option.elim]

theorem scanStep_stringNoValue {ctx : Ctx} {cli : Cli} {st : RState} {rem : List String}
    {arg : String} {a1 : String}
    (hhd : headDash arg = true)
    (hres : resolveAlias st.optionTypes arg = (a1, some "string")) :
    scanStep ctx cli st false rem arg [] =
      .stop (.errored (addDiag st ("no value given for option " ++ quo a1))) := by
  simp [scanStep, hhd, hres, Option.elim]

theorem scanStep_intVal {ctx : Ctx} {cli : Cli} {st : RState} {rem : List String}
    {arg : String} {a1 : String} {v : String} {r2 : List String} {n : Int}
    (hhd : headDash arg = true)
    (hres : resolveAlias st.optionTypes arg = (a1, some "int"))
    (hp : parseIntGo v = some n) :
    scanStep ctx cli st false rem arg (v :: r2) = .cont2 (setOpt st a1 (.vi n)) rem := by
  simp [scanStep, hhd, hres, hp, Option.elim]

theorem scanStep_intBad {ctx : Ctx} {cli : Cli} {st : RState} {rem : List String}
    {arg : String} {a1 : String} {v : String} {r2 : List String}
    (hhd : headDash arg = true)
    (hres : resolveAlias st.optionTypes arg = (a1, some "int"))
    (hp : parseIntGo v = none) :
    scanStep ctx cli st false rem arg (v :: r2) =
      .stop (.errored (addDiag st ("invalid int " ++ quo v ++ " for option " ++ quo a1))) := by
  simp [scanStep, hhd, hres, hp, Option.elim]

theorem scanStep_stringVal {ctx : Ctx} {cli : Cli} {st : RState} {rem : List String}
    {arg : String} {a1 : String} {v : String} {r2 : List String}
    (hhd : headDash arg = true)
    (hres : resolveAlias st.optionTypes arg = (a1, some "string"))
    (hrc : reqCheck ctx ((lookupStr a1 st.optionReqs).getD []) a1 v = none) :
    scanStep ctx cli st false rem arg (v :: r2) = .cont2 (setOpt st a1 (.vs v)) rem := by
  simp [scanStep, hhd, hres, hrc, Option.elim]

theorem scanStep_stringReqFail {ctx : Ctx} {cli : Cli} {st : RState} {rem : List String}
    {arg : String} {a1 : String} {v : String} {r2 : List String} {m : String}
    (hhd : headDash arg = true)
    (hres : resolveAlias st.optionTypes arg = (a1, some "string"))
    (hrc : reqCheck ctx ((lookupStr a1 st.optionReqs).getD []) a1 v = some m) :
    scanStep ctx cli st false rem arg (v :: r2) = .stop (.errored (addDiag st m)) := by
  simp [scanStep, hhd, hres, hrc, Option.elim]

theorem scanStep_unknown {ctx : Ctx} {cli : Cli} {st : RState} {rem : List String}
    {arg : String} {rest : List String} {a1 : String} {ty : Option String}
    (hhd : headDash arg = true)
    (hres : resolveAlias st.optionTypes arg = (a1, ty))
    (hb : ty ≠ some "bool") (hi : ty ≠ some "int") (hs : ty ≠ some "string")
    (hno : ¬ (hasPref a1 "--no-" = true ∧
      lookupStr ("--" ++ dropStr a1 5) st.optionTypes = some "bool")) :
    scanStep ctx cli st false rem arg rest =
      .stop (.errored (addDiag st ("unknown option " ++ quo a1))) := by
  simp [scanStep, hhd, hres, hb, hi, hs, hno]

theorem scanStep_noNeg {ctx : Ctx} {cli : Cli} {st : RState} {rem : List String}
    {arg : String} {rest : List String} {a1 : String} {ty : Option String}
    (hhd : headDash arg = true)
    (hres : resolveAlias st.optionTypes arg = (a1, ty))
    (hb : ty ≠ some "bool") (hi : ty ≠ some "int") (hs : ty ≠ some "string")
    (hpre : hasPref a1 "--no-" = true)
    (hneg : lookupStr ("--" ++ dropStr a1 5) st.optionTypes = some "bool") :
    scanStep ctx cli st false rem arg rest =
      .cont1 (setOpt st ("--" ++ dropStr a1 5) (.vb false)) false rem := by
  simp [scanStep, hhd, hres, hb, hi, hs, hpre, hneg]

theorem scanStep_dispatchCase {ctx : Ctx} {cli : Cli} {st : RState} {rem : List String}
    {arg : String} {rest : List String} {c : Cli}
    (hhd : headDash arg = false)
    (hdl : dispatchLookup cli arg = some c) :
    scanStep ctx cli st false rem arg rest = .stop (.dispatchTo arg rest st) := by
  have hdd : arg ≠ "--" := by
    intro he
    subst he
    simp [headDash] at hhd
  simp [scanStep, hhd, hdd, hdl]

theorem scanStep_plainAppend {ctx : Ctx} {cli : Cli} {st : RState} {rem : List String}
    {arg : String} {rest : List String}
    (hhd : headDash arg = false)
    (hdl : dispatchLookup cli arg = none) :
    scanStep ctx cli st false rem arg rest = .cont1 st false (rem ++ [arg]) := by
  have hdd : arg ≠ "--" := by
    intro he
    subst he
    simp [headDash] at hhd
  simp [scanStep, hhd, hdd, hdl]

/-! Basic facts about the string and state helpers, used to reason about
parametric schemas. -/

theorem data_append (a b : String) : (a ++ b).data = a.data ++ b.data := by
  cases a
  cases b
  rfl

theorem mk_data (s : String) : String.mk s.data = s := by
  cases s
  rfl

theorem isPrefixOf_self_append (l t : List Char) : l.isPrefixOf (l ++ t) = true := by
  induction l with
  | nil => simp [List.isPrefixOf]
  | cons a as ih => simp [List.isPrefixOf, ih]

theorem hasPref_append (p x : String) : hasPref (p ++ x) p = true := by
  simp [hasPref, data_append, isPrefixOf_self_append]

theorem dropStr_env (x : String) : dropStr ("env:" ++ x) 4 = x := by
  have h : ("env:" ++ x).data = "env:".data ++ x.data := data_append _ _
  simp only [dropStr, h]
  have h4 : "env:".data.length = 4 := by decide
  rw [← h4, List.drop_left, mk_data]

theorem append_ne_empty (p x : String) (hp : p.data ≠ []) : p ++ x ≠ "" := by
  intro h
  have : (p ++ x).data = "".data := by rw [h]
  rw [data_append] at this
  simp at this
  exact hp this.1

theorem headDash_normAlias (a : String) : headDash (normAlias a) = true := by
  unfold normAlias
  split <;> simp [headDash, data_append]

theorem normAlias_ne_empty (a : String) : normAlias a ≠ "" := by
  unfold normAlias
  split
  · exact append_ne_empty "-" a (by decide)
  · exact append_ne_empty "--" a (by decide)

theorem setField_optionTypes (st : RState) (f : String) (v : Val) :
    (setField st f v).optionTypes = st.optionTypes := rfl

theorem setField_optionBinds (st : RState) (f : String) (v : Val) :
    (setField st f v).optionBinds = st.optionBinds := rfl

theorem setField_optionReqs (st : RState) (f : String) (v : Val) :
    (setField st f v).optionReqs = st.optionReqs := rfl

theorem setField_diags (st : RState) (f : String) (v : Val) :
    (setField st f v).diags = st.diags := rfl

theorem setField_probes (st : RState) (f : String) (v : Val) :
    (setField st f v).probes = st.probes := rfl

theorem setField_vals (st : RState) (f : String) (v : Val) :
    (setField st f v).vals = setVal f v st.vals := rfl

theorem appendHelpRow_vals (s : Bool) (t : String) (ns : List String) (txt : String)
    (st : RState) : (appendHelpRow s t ns txt st).vals = st.vals := by
  unfold appendHelpRow
  split <;> split <;> rfl

theorem appendHelpRow_optionTypes (s : Bool) (t : String) (ns : List String) (txt : String)
    (st : RState) : (appendHelpRow s t ns txt st).optionTypes = st.optionTypes := by
  unfold appendHelpRow
  split <;> split <;> rfl

theorem appendHelpRow_optionBinds (s : Bool) (t : String) (ns : List String) (txt : String)
    (st : RState) : (appendHelpRow s t ns txt st).optionBinds = st.optionBinds := by
  unfold appendHelpRow
  split <;> split <;> rfl

theorem appendHelpRow_optionReqs (s : Bool) (t : String) (ns : List String) (txt : String)
    (st : RState) : (appendHelpRow s t ns txt st).optionReqs = st.optionReqs := by
  unfold appendHelpRow
  split <;> split <;> rfl

theorem appendHelpRow_diags (s : Bool) (t : String) (ns : List String) (txt : String)
    (st : RState) : (appendHelpRow s t ns txt st).diags = st.diags := by
  unfold appendHelpRow
  split <;> split <;> rfl

theorem appendHelpRow_probes (s : Bool) (t : String) (ns : List String) (txt : String)
    (st : RState) : (appendHelpRow s t ns txt st).probes = st.probes := by
  unfold appendHelpRow
  split <;> split <;> rfl

/-- Membership is preserved by the insertion step. -/
theorem mem_insertStr {a x : String} {l : List String} :
    a ∈ insertStr x l ↔ a = x ∨ a ∈ l := by
  induction l with
  | nil => simp [insertStr]
  | cons y ys ih =>
    unfold insertStr
    split
    · simp
    · simp [ih]
      tauto

/-- Sorting preserves membership. -/
theorem mem_sortStrings {a : String} {l : List String} :
    a ∈ sortStrings l ↔ a ∈ l := by
  induction l with
  | nil => simp [sortStrings]
  | cons x xs ih => simp [sortStrings, mem_insertStr, ih]


/-- A step that answers "continue with the next token" leaves the terminator
flag as it was: the only branch that would flip it is the `--` branch, which
is unreachable because `--` is caught by the dash branch first. -/
theorem scanStep_noMore {ctx : Ctx} {cli : Cli} {st : RState} {nm : Bool}
    {rem : List String} {arg : String} {rest : List String} {stA : RState} {nmA : Bool}
    {remA : List String}
    (h : scanStep ctx cli st nm rem arg rest = .cont1 stA nmA remA) : nmA = nm := by
  unfold scanStep at h
  split at h
  · split at h
    · simp at h
    · injection h with h1 h2 h3
      exact h2.symm
  · split at h
    · split at h
      · split at h
        · injection h with h1 h2 h3
          exact h2.symm
        · split at h
          · cases rest with
            | nil => simp [Option.elim] at h
            | cons v r2 =>
              simp only [List.head?, Option.elim] at h
              split at h
              · simp at h
              · simp at h
          · split at h
            · cases rest with
              | nil => simp [Option.elim] at h
              | cons v r2 =>
                simp only [List.head?, Option.elim] at h
                split at h
                · simp at h
                · simp at h
            · split at h
              · injection h with h1 h2 h3
                exact h2.symm
              · simp at h
    · split at h
      · rename_i hnd harg
        rw [harg] at hnd
        simp [headDash] at hnd
      · split at h
        · simp at h
        · injection h with h1 h2 h3
          exact h2.symm

/-- Classification of a scanner step's possible results: an error stop, a
dispatch stop (which records the remaining tokens verbatim), a one-token
continuation (whose value does not depend on the tokens after the current
one), or a value-consuming continuation (determined by the current token and
the consumed head alone). -/
theorem scanStep_shape {ctx : Ctx} {cli : Cli} {st : RState} {nm : Bool}
    {rem : List String} {arg : String} {rest : List String} {r : StepRes}
    (h : scanStep ctx cli st nm rem arg rest = r) :
    (∃ stE, r = .stop (.errored stE)) ∨ (r = .stop (.dispatchTo arg rest st)) ∨
    (∃ stA nmA remA, r = .cont1 stA nmA remA ∧
      ∀ rest', scanStep ctx cli st nm rem arg rest' = r) ∨
    (∃ stA remA v, r = .cont2 stA remA ∧ rest.head? = some v ∧
      ∀ rest2', scanStep ctx cli st nm rem arg (v :: rest2') = r) := by
  rcases hra : resolveAlias st.optionTypes arg with ⟨a1, rty⟩
  by_cases hnm : nm = true
  · by_cases hdl : (dispatchLookup cli arg).isSome = true
    · simp [scanStep, hnm, hdl] at h
      tauto
    · simp [scanStep, hnm, hdl] at h
      refine Or.inr (Or.inr (Or.inl ⟨_, _, _, h.symm, ?_⟩))
      intro rest'
      simp [scanStep, hnm, hdl, h]
  · by_cases hhd : headDash arg = true
    · by_cases hb : rty = some "bool"
      · simp [scanStep, hnm, hhd, hra, hb] at h
        refine Or.inr (Or.inr (Or.inl ⟨_, _, _, h.symm, ?_⟩))
        intro rest'
        simp [scanStep, hnm, hhd, hra, hb, h]
      · by_cases hi : rty = some "int"
        · cases rest with
          | nil =>
            simp [scanStep, hnm, hhd, hra, hb, hi, Option.elim] at h
            exact Or.inl ⟨_, h.symm⟩
          | cons v r2 =>
            cases hp : parseIntGo v with
            | none =>
              simp [scanStep, hnm, hhd, hra, hb, hi, hp, Option.elim] at h
              exact Or.inl ⟨_, h.symm⟩
            | some n =>
              simp [scanStep, hnm, hhd, hra, hb, hi, hp, Option.elim] at h
              refine Or.inr (Or.inr (Or.inr ⟨_, _, v, h.symm, rfl, ?_⟩))
              intro rest2'
              simp [scanStep, hnm, hhd, hra, hb, hi, hp, Option.elim, h]
        · by_cases hs : rty = some "string"
          · cases rest with
            | nil =>
              simp [scanStep, hnm, hhd, hra, hb, hi, hs, Option.elim] at h
              exact Or.inl ⟨_, h.symm⟩
            | cons v r2 =>
              cases hp : reqCheck ctx ((lookupStr a1 st.optionReqs).getD []) a1 v with
              | some m =>
                simp [scanStep, hnm, hhd, hra, hb, hi, hs, hp, Option.elim] at h
                exact Or.inl ⟨_, h.symm⟩
              | none =>
                simp [scanStep, hnm, hhd, hra, hb, hi, hs, hp, Option.elim] at h
                refine Or.inr (Or.inr (Or.inr ⟨_, _, v, h.symm, rfl, ?_⟩))
                intro rest2'
                simp [scanStep, hnm, hhd, hra, hb, hi, hs, hp, Option.elim, h]
          · by_cases hno : (hasPref a1 "--no-" = true ∧
                lookupStr ("--" ++ dropStr a1 5) st.optionTypes = some "bool")
            · simp [scanStep, hnm, hhd, hra, hb, hi, hs, hno] at h
              refine Or.inr (Or.inr (Or.inl ⟨_, _, _, h.symm, ?_⟩))
              intro rest'
              simp [scanStep, hnm, hhd, hra, hb, hi, hs, hno, h]
            · simp [scanStep, hnm, hhd, hra, hb, hi, hs, hno] at h
              exact Or.inl ⟨_, h.symm⟩
    · by_cases hdd : arg = "--"
      · subst hdd
        simp [headDash] at hhd
      · by_cases hdl : (dispatchLookup cli arg).isSome = true
        · simp [scanStep, hnm, hhd, hdd, hdl] at h
          tauto
        · simp [scanStep, hnm, hhd, hdd, hdl] at h
          refine Or.inr (Or.inr (Or.inl ⟨_, _, _, h.symm, ?_⟩))
          intro rest'
          simp [scanStep, hnm, hhd, hdd, hdl, h]

/-- Scanning a token list that runs to completion composes: appending more
tokens continues the scan from the reached state and positional sink. -/
theorem scanTokens_append (ctx : Ctx) (cli : Cli) (more : List String)
    (front : List String) (st : RState) (nm : Bool) (remaining : List String)
    (st1 : RState) (rem1 : List String)
    (h : scanTokens ctx cli st nm remaining front = .done st1 rem1) :
    scanTokens ctx cli st nm remaining (front ++ more) =
      scanTokens ctx cli st1 nm rem1 more := by
  revert h
  induction st, nm, remaining, front using scanTokens.induct ctx cli with
  | case1 st nm remaining =>
    intro h
    rw [scanTokens.eq_1] at h
    injection h with h1 h2
    subst h1
    subst h2
    rfl
  | case2 st nm remaining d rest s hs =>
    intro h
    rw [scanTokens.eq_2, hs] at h
    simp only [] at h
    subst h
    rcases scanStep_shape hs with ⟨stE, he⟩ | hd | ⟨stA, nmA, remA, hc, _⟩ | ⟨stA, remA, v, hc, _, _⟩
    · simp at he
    · simp at hd
    · simp at hc
    · simp at hc
  | case3 st nm remaining d rest stA nmA remA hs ih =>
    intro h
    rw [scanTokens.eq_2, hs] at h
    simp only [] at h
    have hnm : nmA = nm := scanStep_noMore hs
    subst hnm
    rw [List.cons_append, scanTokens.eq_2]
    rcases scanStep_shape hs with ⟨stE, he⟩ | hd | ⟨stA', nmA', remA', _, htr⟩ | ⟨_, _, _, hc, _, _⟩
    · simp at he
    · simp at hd
    · rw [htr (rest ++ more)]
      simp only []
      exact ih h
    · simp at hc
  | case4 st nm remaining d stA remA hs =>
    intro h
    rcases scanStep_shape hs with ⟨stE, he⟩ | hd | ⟨stA', nmA', remA', hc, _⟩ | ⟨_, _, _, _, hh, _⟩
    · simp at he
    · simp at hd
    · simp at hc
    · simp at hh
  | case5 st nm remaining d stA remA d1 rest hs ih =>
    intro h
    rw [scanTokens.eq_2, hs] at h
    simp only [] at h
    rw [List.cons_append, List.cons_append, scanTokens.eq_2]
    rcases scanStep_shape hs with ⟨stE, he⟩ | hd | ⟨stA', nmA', remA', hc, _⟩ | ⟨stA', remA', v, _, hh, htr⟩
    · simp at he
    · simp at hd
    · simp at hc
    · simp only [List.head?] at hh
      injection hh with hv
      subst hv
      rw [htr (rest ++ more)]
      simp only []
      exact ih h



theorem runReflect_oneOpt
    (ctx : Ctx) (fieldName aliasTag dfltTag reqTag kindStr : String) (v0 : Val)
    (fn : List (String × Val) → List String → Int) (rh : List String)
    (hk : kindStr = "bool" ∨ kindStr = "int" ∨ kindStr = "string")
    (hexp : isExportedStr fieldName = true)
    (hat : aliasTag ≠ "")
    (hsa : splitComma aliasTag = [aliasTag])
    (hrh : buildReqsHelp (splitComma reqTag) = .ok rh) :
    ∃ txt, runReflect ctx (oneOptCli fieldName aliasTag dfltTag reqTag kindStr v0 fn) =
      (match applyDefaults ctx (normAlias aliasTag) kindStr fieldName
          (buildReqSet (splitComma reqTag)) dfltTag (splitComma dfltTag)
          (oneOptSt1 fieldName aliasTag reqTag kindStr v0) with
       | .ok st2 => .ok (appendHelpRow false kindStr [oneOptHelpName aliasTag kindStr] txt st2)
       | .fail st2 => .fail st2
       | .panicked m st2 => .panicked m st2) := by
  refine ⟨"" ++ (if rh ≠ [] then " Requirements: " ++ joinSep ", " rh else "")
    ++ (if buildDefaultsHelp (splitComma dfltTag) ≠ [] then
      " Default: " ++ joinSep ", " (buildDefaultsHelp (splitComma dfltTag)) else ""), ?_⟩
  rcases hk with hk | hk | hk <;> subst hk <;>
  · unfold runReflect oneOptCli
    simp only [Cli.fields, Cli.vals, Cli.subcommands, Cli.hiddenSubcommands,
      flattenFields, flattenOne, StructField.kindStr]
    simp only [List.map, StructField.fname, List.isEmpty]
    unfold reflectFold reflectField
    simp only [StructField.fname, StructField.optionTag, StructField.kindStr,
      StructField.defaultTag, StructField.requiredTag, StructField.helpTag,
      hexp, hat, classifyKind, hrh, hsa]
    unfold processAliases
    simp only [hat]
    cases hAD : applyDefaults ctx (normAlias aliasTag) _ fieldName
        (buildReqSet (splitComma reqTag)) dfltTag (splitComma dfltTag)
        (oneOptSt1 fieldName aliasTag reqTag _ v0) with
    | ok st2 =>
      simp [oneOptSt1, oneOptHelpName, oneOptCli, Cli.vals] at hAD
      simp [hAD, hexp, hat, hsa, hrh, processAliases, reflectFold, initRState, Cli.vals, oneOptCli, oneOptHelpName]
    | fail st2 =>
      simp [oneOptSt1, oneOptHelpName, oneOptCli, Cli.vals] at hAD
      simp [hAD, hexp, hat, hsa, hrh, processAliases, reflectFold, initRState, Cli.vals, oneOptCli, oneOptHelpName]
    | panicked m st2 =>
      simp [oneOptSt1, oneOptHelpName, oneOptCli, Cli.vals] at hAD
      simp [hAD, hexp, hat, hsa, hrh, processAliases, reflectFold, initRState, Cli.vals, oneOptCli, oneOptHelpName]



theorem runSubcommand_done
    (ctx : Ctx) (name : String) (cli : Cli) (args : List String) (st0 stX : RState)
    (remX : List String)
    (hrefl : runReflect ctx cli = .ok st0)
    (hscan : scanTokens ctx cli st0 false [] args = .done stX remX)
    (hA : ¬ lookupStr "AllHelpOption" stX.vals = some (.vb true))
    (hH : ¬ lookupStr "HelpOption" stX.vals = some (.vb true)) :
    runSubcommand ctx name cli args =
      { code := cli.func stX.vals remX, diags := stX.diags, probes := stX.probes,
        vals := stX.vals, argsField := some remX, panicMsg := none } := by
  rw [runSubcommand.eq_def, hrefl]
  dsimp only []
  rw [hscan]
  dsimp only []
  rw [if_neg hA, if_neg hH]

theorem runSubcommand_errored
    (ctx : Ctx) (name : String) (cli : Cli) (args : List String) (st0 stE : RState)
    (hrefl : runReflect ctx cli = .ok st0)
    (hscan : scanTokens ctx cli st0 false [] args = .errored stE) :
    runSubcommand ctx name cli args =
      { code := 1, diags := stE.diags, probes := stE.probes,
        vals := stE.vals, argsField := none, panicMsg := none } := by
  rw [runSubcommand.eq_def, hrefl]
  dsimp only []
  rw [hscan]

theorem runSubcommand_failReflect
    (ctx : Ctx) (name : String) (cli : Cli) (args : List String) (stF : RState)
    (hrefl : runReflect ctx cli = .fail stF) :
    runSubcommand ctx name cli args =
      { code := 1, diags := stF.diags, probes := stF.probes,
        vals := stF.vals, argsField := none, panicMsg := none } := by
  rw [runSubcommand.eq_def, hrefl]

theorem runSubcommand_dispatch
    (ctx : Ctx) (name : String) (cli : Cli) (args : List String) (st0 stD : RState)
    (t : String) (rest : List String) (child : Cli)
    (hrefl : runReflect ctx cli = .ok st0)
    (hscan : scanTokens ctx cli st0 false [] args = .dispatchTo t rest stD)
    (hdl : dispatchLookup cli t = some child) :
    runSubcommand ctx name cli args =
      (let o := runSubcommand ctx (name ++ " " ++ t) child rest
       { o with probes := stD.probes + o.probes, diags := stD.diags ++ o.diags }) := by
  rw [runSubcommand.eq_def, hrefl]
  dsimp only []
  rw [hscan]
  dsimp only []
  split
  · rename_i child2 hd2
    rw [hdl] at hd2
    injection hd2 with he
    subst he
    rfl
  · rename_i hd2
    rw [hdl] at hd2
    exact absurd hd2 (by simp)



/-- The default chain only writes field values, diagnostics stay, and the
alias tables are untouched on a successful run. -/
theorem applyDefaults_ok_tables {ctx : Ctx} {A k f : String} {reqs : List String}
    {tag : String} : ∀ {ds : List String} {st st2 : RState},
    applyDefaults ctx A k f reqs tag ds st = .ok st2 →
    st2.optionTypes = st.optionTypes ∧ st2.optionBinds = st.optionBinds ∧
    st2.optionReqs = st.optionReqs ∧ st2.diags = st.diags := by
  intro ds
  induction ds with
  | nil =>
    intro st st2 h
    unfold applyDefaults at h
    injection h with h2
    subst h2
    exact ⟨rfl, rfl, rfl, rfl⟩
  | cons d rest ih =>
    intro st st2 h
    unfold applyDefaults at h
    repeat' split at h
    all_goals first
      | exact ih h
      | (refine absurd h ?_
         intro hc
         injection hc
         done)
      | (injection h with h2
         subst h2
         refine ⟨?_, ?_, ?_, ?_⟩ <;> (unfold setField; try split) <;> rfl)



theorem reqCheck_nil (ctx : Ctx) (n v : String) : reqCheck ctx [] n v = none := by
  simp [reqCheck]

theorem mem_keys_lookupStr {α : Type} {l : List (String × α)} {k : String}
    (h : k ∈ l.map Prod.fst) : (lookupStr k l).isSome := by
  induction l with
  | nil => simp at h
  | cons p rest ih =>
    obtain ⟨k2, v⟩ := p
    simp at h
    rcases h with h | h
    · simp [lookupStr, h]
    · by_cases he : k2 = k
      · simp [lookupStr, he]
      · have hm : k ∈ rest.map Prod.fst := by
          simp
          exact h
        simp [lookupStr, he, ih hm]

/-- Final field values of a one-option level invoked with no arguments, given
the outcome of its default chain. -/
theorem oneOpt_final_vals
    (ctx : Ctx) (name fieldName aliasTag dfltTag kindStr : String) (v0 dv : Val)
    (fn : List (String × Val) → List String → Int) (st2 : RState)
    (hk : kindStr = "bool" ∨ kindStr = "int" ∨ kindStr = "string")
    (hexp : isExportedStr fieldName = true)
    (hat : aliasTag ≠ "")
    (hsa : splitComma aliasTag = [aliasTag])
    (hf1 : fieldName ≠ "AllHelpOption") (hf2 : fieldName ≠ "HelpOption")
    (hADeq : applyDefaults ctx (normAlias aliasTag) kindStr fieldName
      (buildReqSet (splitComma "")) dfltTag (splitComma dfltTag)
      (oneOptSt1 fieldName aliasTag "" kindStr v0) = .ok st2)
    (hv2 : st2.vals = [(fieldName, dv)]) :
    (runSubcommand ctx name (oneOptCli fieldName aliasTag dfltTag "" kindStr v0 fn) []).vals
      = [(fieldName, dv)] := by
  obtain ⟨txt, hrefl⟩ := runReflect_oneOpt ctx fieldName aliasTag dfltTag "" kindStr v0 fn []
    hk hexp hat hsa (by rfl)
  rw [hADeq] at hrefl
  dsimp only [] at hrefl
  rw [runSubcommand_done ctx name _ [] _
    (appendHelpRow false kindStr [oneOptHelpName aliasTag kindStr] txt st2) [] hrefl
    (scanTokens.eq_1 ctx _ _ false [])
    (by simp [appendHelpRow_vals, hv2, lookupStr, hf1])
    (by simp [appendHelpRow_vals, hv2, lookupStr, hf2])]
  simp [appendHelpRow_vals, hv2]



/-- An explicit command-line value for a valued (integer or string) option
overrides whatever the default chain resolved. -/
theorem oneOpt_override_valued
    (ctx : Ctx) (name fieldName aliasTag dfltTag kindStr : String) (v0 dv : Val)
    (fn : List (String × Val) → List String → Int) (st2 : RState) (v : String) (cv : Val)
    (hk2 : kindStr = "int" ∨ kindStr = "string")
    (hexp : isExportedStr fieldName = true)
    (hat : aliasTag ≠ "")
    (hsa : splitComma aliasTag = [aliasTag])
    (hf1 : fieldName ≠ "AllHelpOption") (hf2 : fieldName ≠ "HelpOption")
    (hADeq : applyDefaults ctx (normAlias aliasTag) kindStr fieldName
      (buildReqSet (splitComma "")) dfltTag (splitComma dfltTag)
      (oneOptSt1 fieldName aliasTag "" kindStr v0) = .ok st2)
    (hv2 : st2.vals = [(fieldName, dv)])
    (hparse : parseByKind kindStr v = some cv) :
    (runSubcommand ctx name (oneOptCli fieldName aliasTag dfltTag "" kindStr v0 fn)
      [normAlias aliasTag, v]).vals = [(fieldName, cv)] := by
  obtain ⟨txt, hrefl⟩ := runReflect_oneOpt ctx fieldName aliasTag dfltTag "" kindStr v0 fn []
    (Or.inr hk2) hexp hat hsa (by rfl)
  rw [hADeq] at hrefl
  dsimp only [] at hrefl
  obtain ⟨hty, hbi, hrq, hdg⟩ := applyDefaults_ok_tables hADeq
  have htyOk : (appendHelpRow false kindStr [oneOptHelpName aliasTag kindStr] txt st2).optionTypes
      = [(normAlias aliasTag, kindStr)] := by
    rw [appendHelpRow_optionTypes, hty]
    rfl
  have hbiOk : (appendHelpRow false kindStr [oneOptHelpName aliasTag kindStr] txt st2).optionBinds
      = [(normAlias aliasTag, fieldName)] := by
    rw [appendHelpRow_optionBinds, hbi]
    rfl
  have hrqOk : (appendHelpRow false kindStr [oneOptHelpName aliasTag kindStr] txt st2).optionReqs
      = [(normAlias aliasTag, [])] := by
    rw [appendHelpRow_optionReqs, hrq]
    rfl
  have hvOk : (appendHelpRow false kindStr [oneOptHelpName aliasTag kindStr] txt st2).vals
      = [(fieldName, dv)] := by
    rw [appendHelpRow_vals, hv2]
  have hres : resolveAlias (appendHelpRow false kindStr [oneOptHelpName aliasTag kindStr] txt st2).optionTypes
      (normAlias aliasTag) = (normAlias aliasTag, some kindStr) := by
    rw [htyOk]
    exact resolveAlias_found (by simp [lookupStr])
  have hsetv : ∀ w : Val,
      (setOpt (appendHelpRow false kindStr [oneOptHelpName aliasTag kindStr] txt st2)
        (normAlias aliasTag) w).vals = [(fieldName, w)] := by
    intro w
    rw [setOpt, hbiOk]
    simp [lookupStr, setField_vals, hvOk, setVal]
  rcases hk2 with hk2 | hk2 <;> subst hk2
  · obtain ⟨n, hpInt, hcv⟩ : ∃ n, parseIntGo v = some n ∧ cv = .vi n := by
      simp [parseByKind] at hparse
      cases hp : parseIntGo v with
      | none => rw [hp] at hparse; simp at hparse
      | some n =>
        rw [hp] at hparse
        simp at hparse
        exact ⟨n, rfl, hparse.symm⟩
    subst hcv
    have hscan : scanTokens ctx (oneOptCli fieldName aliasTag dfltTag "" "int" v0 fn)
        (appendHelpRow false "int" [oneOptHelpName aliasTag "int"] txt st2) false []
        [normAlias aliasTag, v] =
        .done (setOpt (appendHelpRow false "int" [oneOptHelpName aliasTag "int"] txt st2)
          (normAlias aliasTag) (.vi n)) [] := by
      rw [scanTokens.eq_2, scanStep_intVal (headDash_normAlias _) hres hpInt]
      dsimp only []
      rw [scanTokens.eq_1]
    rw [runSubcommand_done ctx name _ _ _ _ [] hrefl hscan
      (by rw [hsetv]; simp [lookupStr, hf1])
      (by rw [hsetv]; simp [lookupStr, hf2])]
    exact hsetv _
  · have hcv : cv = .vs v := by
      simp [parseByKind] at hparse
      exact hparse.symm
    subst hcv
    have hrc : reqCheck ctx ((lookupStr (normAlias aliasTag)
        (appendHelpRow false "string" [oneOptHelpName aliasTag "string"] txt st2).optionReqs).getD [])
        (normAlias aliasTag) v = none := by
      rw [hrqOk]
      simp [lookupStr, reqCheck_nil]
    have hscan : scanTokens ctx (oneOptCli fieldName aliasTag dfltTag "" "string" v0 fn)
        (appendHelpRow false "string" [oneOptHelpName aliasTag "string"] txt st2) false []
        [normAlias aliasTag, v] =
        .done (setOpt (appendHelpRow false "string" [oneOptHelpName aliasTag "string"] txt st2)
          (normAlias aliasTag) (.vs v)) [] := by
      rw [scanTokens.eq_2, scanStep_stringVal (headDash_normAlias _) hres hrc]
      dsimp only []
      rw [scanTokens.eq_1]
    rw [runSubcommand_done ctx name _ _ _ _ [] hrefl hscan
      (by rw [hsetv]; simp [lookupStr, hf1])
      (by rw [hsetv]; simp [lookupStr, hf2])]
    exact hsetv _



/-- Passing a boolean option's alias explicitly sets it true, overriding
whatever the default chain resolved. -/
theorem oneOpt_override_bool
    (ctx : Ctx) (name fieldName aliasTag dfltTag : String) (v0 dv : Val)
    (fn : List (String × Val) → List String → Int) (st2 : RState)
    (hexp : isExportedStr fieldName = true)
    (hat : aliasTag ≠ "")
    (hsa : splitComma aliasTag = [aliasTag])
    (hf1 : fieldName ≠ "AllHelpOption") (hf2 : fieldName ≠ "HelpOption")
    (hADeq : applyDefaults ctx (normAlias aliasTag) "bool" fieldName
      (buildReqSet (splitComma "")) dfltTag (splitComma dfltTag)
      (oneOptSt1 fieldName aliasTag "" "bool" v0) = .ok st2)
    (hv2 : st2.vals = [(fieldName, dv)]) :
    (runSubcommand ctx name (oneOptCli fieldName aliasTag dfltTag "" "bool" v0 fn)
      [normAlias aliasTag]).vals = [(fieldName, .vb true)] := by
  obtain ⟨txt, hrefl⟩ := runReflect_oneOpt ctx fieldName aliasTag dfltTag "" "bool" v0 fn []
    (Or.inl rfl) hexp hat hsa (by rfl)
  rw [hADeq] at hrefl
  dsimp only [] at hrefl
  obtain ⟨hty, hbi, hrq, hdg⟩ := applyDefaults_ok_tables hADeq
  have htyOk : (appendHelpRow false "bool" [oneOptHelpName aliasTag "bool"] txt st2).optionTypes
      = [(normAlias aliasTag, "bool")] := by
    rw [appendHelpRow_optionTypes, hty]
    rfl
  have hbiOk : (appendHelpRow false "bool" [oneOptHelpName aliasTag "bool"] txt st2).optionBinds
      = [(normAlias aliasTag, fieldName)] := by
    rw [appendHelpRow_optionBinds, hbi]
    rfl
  have hvOk : (appendHelpRow false "bool" [oneOptHelpName aliasTag "bool"] txt st2).vals
      = [(fieldName, dv)] := by
    rw [appendHelpRow_vals, hv2]
  have hres : resolveAlias (appendHelpRow false "bool" [oneOptHelpName aliasTag "bool"] txt st2).optionTypes
      (normAlias aliasTag) = (normAlias aliasTag, some "bool") := by
    rw [htyOk]
    exact resolveAlias_found (by simp [lookupStr])
  have hsetv : (setOpt (appendHelpRow false "bool" [oneOptHelpName aliasTag "bool"] txt st2)
      (normAlias aliasTag) (.vb true)).vals = [(fieldName, .vb true)] := by
    rw [setOpt, hbiOk]
    simp [lookupStr, setField_vals, hvOk, setVal]
  have hscan : scanTokens ctx (oneOptCli fieldName aliasTag dfltTag "" "bool" v0 fn)
      (appendHelpRow false "bool" [oneOptHelpName aliasTag "bool"] txt st2) false []
      [normAlias aliasTag] =
      .done (setOpt (appendHelpRow false "bool" [oneOptHelpName aliasTag "bool"] txt st2)
        (normAlias aliasTag) (.vb true)) [] := by
    rw [scanTokens.eq_2, scanStep_boolCase (headDash_normAlias _) hres]
    dsimp only []
    rw [scanTokens.eq_1]
  rw [runSubcommand_done ctx name _ _ _ _ [] hrefl hscan
    (by rw [hsetv]; simp [lookupStr, hf1])
    (by rw [hsetv]; simp [lookupStr, hf2])]
  exact hsetv



theorem parseByKind_boolInv {s : String} {v : Val} (h : parseByKind "bool" s = some v) :
    ∃ b, parseBoolGo s = some b ∧ v = .vb b := by
  cases hp : parseBoolGo s with
  | none =>
    refine absurd h ?_
    simp [parseByKind, hp]
  | some b =>
    refine ⟨b, rfl, ?_⟩
    have h2 : some (Val.vb b) = some v := by
      rw [← h]
      simp [parseByKind, hp]
    injection h2 with h3
    exact h3.symm

theorem parseByKind_intInv {s : String} {v : Val} (h : parseByKind "int" s = some v) :
    ∃ n, parseIntGo s = some n ∧ v = .vi n := by
  cases hp : parseIntGo s with
  | none =>
    refine absurd h ?_
    simp [parseByKind, hp]
  | some n =>
    refine ⟨n, rfl, ?_⟩
    have h2 : some (Val.vi n) = some v := by
      rw [← h]
      simp [parseByKind, hp]
    injection h2 with h3
    exact h3.symm

theorem parseByKind_stringInv {s : String} {v : Val} (h : parseByKind "string" s = some v) :
    v = .vs s := by
  simp [parseByKind] at h
  exact h.symm

/-- With the environment variable set and its value parsing per the kind, the
default chain applies the environment value and stops: no later source runs. -/
theorem applyDefaults_envSome
    (ctx : Ctx) (A f envName tag kindStr : String) (more : List String) (st : RState)
    (es : String) (dv : Val)
    (hk : kindStr = "bool" ∨ kindStr = "int" ∨ kindStr = "string")
    (henv : ctx.env envName = some es)
    (hparse : parseByKind kindStr es = some dv) :
    applyDefaults ctx A kindStr f [] tag (("env:" ++ envName) :: more) st =
      .ok (setField st f dv) := by
  have h1 : ("env:" ++ envName) ≠ "" := append_ne_empty _ _ (by decide)
  have h2 : hasPref ("env:" ++ envName) "env:" = true := hasPref_append _ _
  have h3 : dropStr ("env:" ++ envName) 4 = envName := dropStr_env _
  rcases hk with hk | hk | hk <;> subst hk
  · obtain ⟨b, hp, hv⟩ := parseByKind_boolInv hparse
    subst hv
    simp [applyDefaults, h1, h2, h3, henv, hp]
  · obtain ⟨n, hp, hv⟩ := parseByKind_intInv hparse
    subst hv
    simp [applyDefaults, h1, h2, h3, henv, hp]
  · have hv := parseByKind_stringInv hparse
    subst hv
    simp [applyDefaults, h1, h2, h3, henv, reqCheck_nil]

/-- With the environment variable unset, the default chain falls through to
the literal source and applies it. -/
theorem applyDefaults_envNone_lit
    (ctx : Ctx) (A f envName lit tag kindStr : String) (st : RState) (lv : Val)
    (hk : kindStr = "bool" ∨ kindStr = "int" ∨ kindStr = "string")
    (henv : ctx.env envName = none)
    (hlitne : lit ≠ "") (hlitenv : hasPref lit "env:" = false) (hlitterm : lit ≠ "terminal")
    (hlv : parseByKind kindStr lit = some lv) :
    applyDefaults ctx A kindStr f [] tag ["env:" ++ envName, lit] st =
      .ok (setField st f lv) := by
  have h1 : ("env:" ++ envName) ≠ "" := append_ne_empty _ _ (by decide)
  have h2 : hasPref ("env:" ++ envName) "env:" = true := hasPref_append _ _
  have h3 : dropStr ("env:" ++ envName) 4 = envName := dropStr_env _
  rcases hk with hk | hk | hk <;> subst hk
  · obtain ⟨b, hp, hv⟩ := parseByKind_boolInv hlv
    subst hv
    simp [applyDefaults, h1, h2, h3, henv, hlitne, hlitenv, hlitterm, hp]
  · obtain ⟨n, hp, hv⟩ := parseByKind_intInv hlv
    subst hv
    simp [applyDefaults, h1, h2, h3, henv, hlitne, hlitenv, hlitterm, hp]
  · have hv := parseByKind_stringInv hlv
    subst hv
    simp [applyDefaults, h1, h2, h3, henv, hlitne, hlitenv, hlitterm, reqCheck_nil]



/-- C1: for every option (of any of the three kinds) whose default
specification lists an environment-variable source followed by a literal
source, a set environment variable whose value parses per the option's kind
becomes the resolved default and the literal is not applied; if the variable
is unset the literal value is applied; and an explicit command-line value
always overrides whichever default was resolved. -/
theorem C1_default_chain
    (ctx : Ctx) (name fieldName aliasTag envName lit kindStr : String) (v0 lv : Val)
    (fn : List (String × Val) → List String → Int)
    (hk : kindStr = "bool" ∨ kindStr = "int" ∨ kindStr = "string")
    (hexp : isExportedStr fieldName = true)
    (hf1 : fieldName ≠ "AllHelpOption") (hf2 : fieldName ≠ "HelpOption")
    (hat : aliasTag ≠ "")
    (hsa : splitComma aliasTag = [aliasTag])
    (hsd : splitComma ("env:" ++ envName ++ "," ++ lit) = ["env:" ++ envName, lit])
    (hlitne : lit ≠ "") (hlitenv : hasPref lit "env:" = false) (hlitterm : lit ≠ "terminal")
    (hlv : parseByKind kindStr lit = some lv) :
    (∀ es ev, ctx.env envName = some es → parseByKind kindStr es = some ev →
      lookupStr fieldName (runSubcommand ctx name
        (oneOptCli fieldName aliasTag ("env:" ++ envName ++ "," ++ lit) "" kindStr v0 fn) []).vals
        = some ev) ∧
    (ctx.env envName = none →
      lookupStr fieldName (runSubcommand ctx name
        (oneOptCli fieldName aliasTag ("env:" ++ envName ++ "," ++ lit) "" kindStr v0 fn) []).vals
        = some lv) ∧
    (∀ v cv, (kindStr = "int" ∨ kindStr = "string") → parseByKind kindStr v = some cv →
      (∀ es, ctx.env envName = some es → (parseByKind kindStr es).isSome) →
      lookupStr fieldName (runSubcommand ctx name
        (oneOptCli fieldName aliasTag ("env:" ++ envName ++ "," ++ lit) "" kindStr v0 fn)
        [normAlias aliasTag, v]).vals = some cv) ∧
    (kindStr = "bool" →
      (∀ es, ctx.env envName = some es → (parseByKind kindStr es).isSome) →
      lookupStr fieldName (runSubcommand ctx name
        (oneOptCli fieldName aliasTag ("env:" ++ envName ++ "," ++ lit) "" kindStr v0 fn)
        [normAlias aliasTag]).vals = some (.vb true)) := by
  refine ⟨?_, ?_, ?_, ?_⟩
  · intro es ev henv hpev
    have hAD := applyDefaults_envSome ctx (normAlias aliasTag) fieldName envName
      ("env:" ++ envName ++ "," ++ lit) kindStr [lit] (oneOptSt1 fieldName aliasTag "" kindStr v0)
      es ev hk henv hpev
    rw [oneOpt_final_vals ctx name fieldName aliasTag _ kindStr v0 ev fn _ hk hexp hat hsa hf1 hf2
      (by rw [hsd]; exact hAD) (by simp [setField_vals, oneOptSt1, setVal])]
    simp [lookupStr]
  · intro henv
    have hAD := applyDefaults_envNone_lit ctx (normAlias aliasTag) fieldName envName lit
      ("env:" ++ envName ++ "," ++ lit) kindStr (oneOptSt1 fieldName aliasTag "" kindStr v0)
      lv hk henv hlitne hlitenv hlitterm hlv
    rw [oneOpt_final_vals ctx name fieldName aliasTag _ kindStr v0 lv fn _ hk hexp hat hsa hf1 hf2
      (by rw [hsd]; exact hAD) (by simp [setField_vals, oneOptSt1, setVal])]
    simp [lookupStr]
  · intro v cv hk2 hpcv hdefOk
    cases henv : ctx.env envName with
    | some es =>
      obtain ⟨ev, hev⟩ := Option.isSome_iff_exists.mp (hdefOk es henv)
      have hAD := applyDefaults_envSome ctx (normAlias aliasTag) fieldName envName
        ("env:" ++ envName ++ "," ++ lit) kindStr [lit]
        (oneOptSt1 fieldName aliasTag "" kindStr v0) es ev hk henv hev
      rw [oneOpt_override_valued ctx name fieldName aliasTag _ kindStr v0 ev fn _ v cv hk2
        hexp hat hsa hf1 hf2 (by rw [hsd]; exact hAD)
        (by simp [setField_vals, oneOptSt1, setVal]) hpcv]
      simp [lookupStr]
    | none =>
      have hAD := applyDefaults_envNone_lit ctx (normAlias aliasTag) fieldName envName lit
        ("env:" ++ envName ++ "," ++ lit) kindStr (oneOptSt1 fieldName aliasTag "" kindStr v0)
        lv hk henv hlitne hlitenv hlitterm hlv
      rw [oneOpt_override_valued ctx name fieldName aliasTag _ kindStr v0 lv fn _ v cv hk2
        hexp hat hsa hf1 hf2 (by rw [hsd]; exact hAD)
        (by simp [setField_vals, oneOptSt1, setVal]) hpcv]
      simp [lookupStr]
  · intro hkb hdefOk
    subst hkb
    cases henv : ctx.env envName with
    | some es =>
      obtain ⟨ev, hev⟩ := Option.isSome_iff_exists.mp (hdefOk es henv)
      have hAD := applyDefaults_envSome ctx (normAlias aliasTag) fieldName envName
        ("env:" ++ envName ++ "," ++ lit) "bool" [lit]
        (oneOptSt1 fieldName aliasTag "" "bool" v0) es ev (Or.inl rfl) henv hev
      rw [oneOpt_override_bool ctx name fieldName aliasTag _ v0 ev fn _
        hexp hat hsa hf1 hf2 (by rw [hsd]; exact hAD)
        (by simp [setField_vals, oneOptSt1, setVal])]
      simp [lookupStr]
    | none =>
      have hAD := applyDefaults_envNone_lit ctx (normAlias aliasTag) fieldName envName lit
        ("env:" ++ envName ++ "," ++ lit) "bool" (oneOptSt1 fieldName aliasTag "" "bool" v0)
        lv (Or.inl rfl) henv hlitne hlitenv hlitterm hlv
      rw [oneOpt_override_bool ctx name fieldName aliasTag _ v0 lv fn _
        hexp hat hsa hf1 hf2 (by rw [hsd]; exact hAD)
        (by simp [setField_vals, oneOptSt1, setVal])]
      simp [lookupStr]



theorem C1_default_chain_witness :
    lookupStr "Count" (runSubcommand ctxC1 "prog"
      (oneOptCli "Count" "count" ("env:" ++ "COUNT" ++ "," ++ "1") "" "int" (.vi 0)
        (fun _ _ => 0)) []).vals = some (.vi 5) ∧
    lookupStr "Count" (runSubcommand ctxC1b "prog"
      (oneOptCli "Count" "count" ("env:" ++ "COUNT" ++ "," ++ "1") "" "int" (.vi 0)
        (fun _ _ => 0)) []).vals = some (.vi 1) ∧
    lookupStr "Count" (runSubcommand ctxC1 "prog"
      (oneOptCli "Count" "count" ("env:" ++ "COUNT" ++ "," ++ "1") "" "int" (.vi 0)
        (fun _ _ => 0)) [normAlias "count", "9"]).vals = some (.vi 9) := by
  have hdefOk : ∀ es, ctxC1.env "COUNT" = some es → (parseByKind "int" es).isSome := by
    intro es hes
    rw [show ctxC1.env "COUNT" = some "5" from rfl] at hes
    injection hes with hes2
    rw [← hes2]
    decide
  refine ⟨?_, ?_, ?_⟩
  · exact (C1_default_chain ctxC1 "prog" "Count" "count" "COUNT" "1" "int" (.vi 0) (.vi 1)
      (fun _ _ => 0) (Or.inr (Or.inl rfl)) (by decide) (by decide) (by decide) (by decide)
      (by decide) (by decide) (by decide) (by decide) (by decide) (by decide)).1
      "5" (.vi 5) rfl (by decide)
  · exact (C1_default_chain ctxC1b "prog" "Count" "count" "COUNT" "1" "int" (.vi 0) (.vi 1)
      (fun _ _ => 0) (Or.inr (Or.inl rfl)) (by decide) (by decide) (by decide) (by decide)
      (by decide) (by decide) (by decide) (by decide) (by decide) (by decide)).2.1 rfl
  · exact (C1_default_chain ctxC1 "prog" "Count" "count" "COUNT" "1" "int" (.vi 0) (.vi 1)
      (fun _ _ => 0) (Or.inr (Or.inl rfl)) (by decide) (by decide) (by decide) (by decide)
      (by decide) (by decide) (by decide) (by decide) (by decide) (by decide)).2.2.1
      "9" (.vi 9) (Or.inl rfl) (by decide) hdefOk



/-- C2 (code bug): a bare `--` token never reaches the scanner's terminator
branch — it starts with `-`, so the dash branch resolves it as an option,
finds no alias, and aborts the level with `unknown option "--"`; the
following token is never appended to the positional sink and `Args` is never
set, contradicting the documented terminator behaviour. -/
theorem C2_terminator_dead :
    (runSubcommand ctxPlain "prog" cliX ["--", "file.txt"]).code = 1 ∧
    (runSubcommand ctxPlain "prog" cliX ["--", "file.txt"]).diags =
      ["unknown option \"--\""] ∧
    (runSubcommand ctxPlain "prog" cliX ["--", "file.txt"]).argsField = none := by
  rw [runSubcommand.eq_def]
  decide

/-- C9 (counterexample): a bare `-` before any terminator is not appended to
the positional sink; the level aborts with `unknown option "-"` and the
`Args` field is never set. -/
theorem C9_single_dash_cex :
    (runSubcommand ctxPlain "prog" cliX ["-"]).code = 1 ∧
    (runSubcommand ctxPlain "prog" cliX ["-"]).diags = ["unknown option \"-\""] ∧
    (runSubcommand ctxPlain "prog" cliX ["-"]).argsField = none := by
  rw [runSubcommand.eq_def]
  decide

/-- C9 (amended): a token consisting of exactly `-` enters the option branch
(the dash test requires only nonemptiness), matches no alias — the
single-dash retry requires length above one — and produces an unknown-option
failure naming `-`; it is never treated as positional. -/
theorem C9_single_dash_unknown
    (ctx : Ctx) (cli : Cli) (st : RState) (rem rest : List String)
    (h : lookupStr "-" st.optionTypes = none) :
    scanTokens ctx cli st false rem ("-" :: rest) =
      .errored (addDiag st ("unknown option " ++ quo "-")) := by
  have hres : resolveAlias st.optionTypes "-" = ("-", none) := by
    simp [resolveAlias, h, (by decide : secondNotDash "-" = false)]
  rw [scanTokens.eq_2, scanStep_unknown (by decide) hres (by simp) (by simp) (by simp)
    (by simp [(by decide : hasPref "-" "--no-" = false)])]

theorem C9_single_dash_unknown_witness :
    scanTokens ctxPlain cliX (initRState cliX) false [] ["-"] =
      .errored (addDiag (initRState cliX) ("unknown option " ++ quo "-")) :=
  C9_single_dash_unknown ctxPlain cliX (initRState cliX) [] [] (by decide)

/-- C8 (counterexample): at a level with no subcommand table, an unmatched
`--all-help` is not an unknown-option failure — it is converted to the
ordinary help alias unconditionally: no diagnostic is emitted, the help
option's storage is set true, and the level returns 1 through the help path
with `Args` set. -/
theorem C8_allhelp_cex :
    (runSubcommand ctxPlain "prog" cliHelpOnly ["--all-help"]).diags = [] ∧
    lookupStr "HelpOption" (runSubcommand ctxPlain "prog" cliHelpOnly ["--all-help"]).vals
      = some (.vb true) ∧
    (runSubcommand ctxPlain "prog" cliHelpOnly ["--all-help"]).argsField = some [] ∧
    (runSubcommand ctxPlain "prog" cliHelpOnly ["--all-help"]).code = 1 := by
  rw [runSubcommand.eq_def]
  decide

/-- C8 (amended): an unmatched `--all-help` token is rewritten to `--help`
whether or not the level has a subcommand table; if `--help` resolves to a
boolean it is set true, and if `--help` is also unregistered the failure
diagnostic names `--help`, not `--all-help`. -/
theorem C8_allhelp_converted
    (ctx : Ctx) (cli : Cli) (st : RState) (rem rest : List String)
    (h1 : lookupStr "--all-help" st.optionTypes = none) :
    (lookupStr "--help" st.optionTypes = some "bool" →
      scanTokens ctx cli st false rem ("--all-help" :: rest) =
        scanTokens ctx cli (setOpt st "--help" (.vb true)) false rem rest) ∧
    (lookupStr "--help" st.optionTypes = none →
      scanTokens ctx cli st false rem ("--all-help" :: rest) =
        .errored (addDiag st ("unknown option " ++ quo "--help"))) := by
  constructor
  · intro h2
    have hres : resolveAlias st.optionTypes "--all-help" = ("--help", some "bool") := by
      simp [resolveAlias, h1, h2, (by decide : secondNotDash "--all-help" = false)]
    rw [scanTokens.eq_2, scanStep_boolCase (by decide) hres]
  · intro h2
    have hres : resolveAlias st.optionTypes "--all-help" = ("--help", none) := by
      simp [resolveAlias, h1, h2, (by decide : secondNotDash "--all-help" = false)]
    rw [scanTokens.eq_2, scanStep_unknown (by decide) hres (by simp) (by simp) (by simp)
      (by simp [(by decide : hasPref "--help" "--no-" = false)])]

theorem C8_allhelp_converted_witness :
    scanTokens ctxPlain cliHelpOnly st8 false [] ["--all-help"] =
      scanTokens ctxPlain cliHelpOnly (setOpt st8 "--help" (.vb true)) false [] [] :=
  (C8_allhelp_converted ctxPlain cliHelpOnly st8 [] [] (by decide)).1 (by decide)



theorem setOpt_diags (st : RState) (a : String) (v : Val) : (setOpt st a v).diags = st.diags := by
  unfold setOpt
  cases lookupStr a st.optionBinds <;> rfl

theorem setOpt_probes (st : RState) (a : String) (v : Val) :
    (setOpt st a v).probes = st.probes := by
  unfold setOpt
  cases lookupStr a st.optionBinds <;> rfl

theorem lookupStr_setVal_self {l : List (String × Val)} {f : String} (v : Val)
    (h : (lookupStr f l).isSome) : lookupStr f (setVal f v l) = some v := by
  induction l with
  | nil => simp [lookupStr] at h
  | cons p rest ih =>
    obtain ⟨k, w⟩ := p
    by_cases hk : k = f
    · simp [lookupStr, setVal, hk]
    · simp [lookupStr, setVal, hk] at h ⊢
      exact ih h

/-- C5: for an integer- or string-valued option whose alias is the final
token of the argument vector, scanning fails with a "no value given"
diagnostic and exit code 1, and the bound storage keeps the values it had
after the tokens before it were processed — the failing occurrence mutates
nothing. -/
theorem C5_missing_value
    (ctx : Ctx) (name : String) (cli : Cli) (front : List String) (a a1 ty : String)
    (st0 st1 : RState) (rem1 : List String)
    (hrefl : runReflect ctx cli = .ok st0)
    (hfront : scanTokens ctx cli st0 false [] front = .done st1 rem1)
    (hhd : headDash a = true)
    (hres : resolveAlias st1.optionTypes a = (a1, some ty))
    (hty : ty = "int" ∨ ty = "string") :
    runSubcommand ctx name cli (front ++ [a]) =
      { code := 1, diags := st1.diags ++ ["no value given for option " ++ quo a1],
        probes := st1.probes, vals := st1.vals, argsField := none, panicMsg := none } := by
  have hscan : scanTokens ctx cli st0 false [] (front ++ [a]) =
      .errored (addDiag st1 ("no value given for option " ++ quo a1)) := by
    rw [scanTokens_append ctx cli [a] front st0 false [] st1 rem1 hfront]
    rcases hty with h | h <;> subst h
    · rw [scanTokens.eq_2, scanStep_intNoValue hhd hres]
    · rw [scanTokens.eq_2, scanStep_stringNoValue hhd hres]
  rw [runSubcommand_errored ctx name cli _ st0 _ hrefl hscan]
  rfl



theorem C5_missing_value_witness :
    runSubcommand ctxPlain "prog" cliInt ([] ++ ["--count"]) =
      { code := 1, diags := stInt.diags ++ ["no value given for option " ++ quo "--count"],
        probes := stInt.probes, vals := stInt.vals, argsField := none, panicMsg := none } :=
  C5_missing_value ctxPlain "prog" cliInt [] "--count" "--count" "int" stInt stInt []
    (by rw [runReflect.eq_def]; decide) (scanTokens.eq_1 ctxPlain cliInt stInt false [])
    (by decide) (resolveAlias_found (by decide)) (Or.inl rfl)



/-- C10: when a valued option's alias occurs twice before any terminator,
each occurrence with a valid value present, both occurrences overwrite the
bound storage in scan order, the scan completes without any new diagnostic,
and the final bound value is the one from the last occurrence.  First
conjunct: integer-valued options; second conjunct: string-valued options. -/
theorem C10_last_occurrence_wins
    (ctx : Ctx) (name : String) (cli : Cli) :
    (∀ (front mid : List String) (a a1 f v1 v2 : String) (n1 n2 : Int)
      (st0 st1 stm : RState) (rem1 remm : List String),
      runReflect ctx cli = .ok st0 →
      scanTokens ctx cli st0 false [] front = .done st1 rem1 →
      headDash a = true →
      resolveAlias st1.optionTypes a = (a1, some "int") →
      parseIntGo v1 = some n1 →
      scanTokens ctx cli (setOpt st1 a1 (.vi n1)) false rem1 mid = .done stm remm →
      resolveAlias stm.optionTypes a = (a1, some "int") →
      parseIntGo v2 = some n2 →
      lookupStr a1 stm.optionBinds = some f →
      (lookupStr f stm.vals).isSome →
      ¬ lookupStr "AllHelpOption" (setVal f (.vi n2) stm.vals) = some (.vb true) →
      ¬ lookupStr "HelpOption" (setVal f (.vi n2) stm.vals) = some (.vb true) →
      runSubcommand ctx name cli (front ++ (a :: v1 :: (mid ++ [a, v2]))) =
        { code := cli.func (setVal f (.vi n2) stm.vals) remm, diags := stm.diags,
          probes := stm.probes, vals := setVal f (.vi n2) stm.vals,
          argsField := some remm, panicMsg := none } ∧
      lookupStr f (setVal f (.vi n2) stm.vals) = some (.vi n2)) ∧
    (∀ (front mid : List String) (a a1 f v1 v2 : String)
      (st0 st1 stm : RState) (rem1 remm : List String),
      runReflect ctx cli = .ok st0 →
      scanTokens ctx cli st0 false [] front = .done st1 rem1 →
      headDash a = true →
      resolveAlias st1.optionTypes a = (a1, some "string") →
      reqCheck ctx ((lookupStr a1 st1.optionReqs).getD []) a1 v1 = none →
      scanTokens ctx cli (setOpt st1 a1 (.vs v1)) false rem1 mid = .done stm remm →
      resolveAlias stm.optionTypes a = (a1, some "string") →
      reqCheck ctx ((lookupStr a1 stm.optionReqs).getD []) a1 v2 = none →
      lookupStr a1 stm.optionBinds = some f →
      (lookupStr f stm.vals).isSome →
      ¬ lookupStr "AllHelpOption" (setVal f (.vs v2) stm.vals) = some (.vb true) →
      ¬ lookupStr "HelpOption" (setVal f (.vs v2) stm.vals) = some (.vb true) →
      runSubcommand ctx name cli (front ++ (a :: v1 :: (mid ++ [a, v2]))) =
        { code := cli.func (setVal f (.vs v2) stm.vals) remm, diags := stm.diags,
          probes := stm.probes, vals := setVal f (.vs v2) stm.vals,
          argsField := some remm, panicMsg := none } ∧
      lookupStr f (setVal f (.vs v2) stm.vals) = some (.vs v2)) := by
  constructor
  · intro front mid a a1 f v1 v2 n1 n2 st0 st1 stm rem1 remm hrefl hfront hhd hres1 hp1 hmid
      hres2 hp2 hbind hkey hA hH
    have hsetOpt2 : setOpt stm a1 (.vi n2) = setField stm f (.vi n2) := by
      rw [setOpt, hbind]
    have hscan : scanTokens ctx cli st0 false [] (front ++ (a :: v1 :: (mid ++ [a, v2]))) =
        .done (setField stm f (.vi n2)) remm := by
      rw [scanTokens_append ctx cli _ front st0 false [] st1 rem1 hfront]
      rw [scanTokens.eq_2, scanStep_intVal hhd hres1 hp1]
      dsimp only []
      rw [scanTokens_append ctx cli [a, v2] mid _ false rem1 stm remm hmid]
      rw [scanTokens.eq_2, scanStep_intVal hhd hres2 hp2]
      dsimp only []
      rw [scanTokens.eq_1, hsetOpt2]
    constructor
    · rw [runSubcommand_done ctx name cli _ st0 (setField stm f (.vi n2)) remm hrefl hscan
        (by rw [setField_vals]; exact hA) (by rw [setField_vals]; exact hH)]
      rfl
    · exact lookupStr_setVal_self _ hkey
  · intro front mid a a1 f v1 v2 st0 st1 stm rem1 remm hrefl hfront hhd hres1 hrc1 hmid
      hres2 hrc2 hbind hkey hA hH
    have hsetOpt2 : setOpt stm a1 (.vs v2) = setField stm f (.vs v2) := by
      rw [setOpt, hbind]
    have hscan : scanTokens ctx cli st0 false [] (front ++ (a :: v1 :: (mid ++ [a, v2]))) =
        .done (setField stm f (.vs v2)) remm := by
      rw [scanTokens_append ctx cli _ front st0 false [] st1 rem1 hfront]
      rw [scanTokens.eq_2, scanStep_stringVal hhd hres1 hrc1]
      dsimp only []
      rw [scanTokens_append ctx cli [a, v2] mid _ false rem1 stm remm hmid]
      rw [scanTokens.eq_2, scanStep_stringVal hhd hres2 hrc2]
      dsimp only []
      rw [scanTokens.eq_1, hsetOpt2]
    constructor
    · rw [runSubcommand_done ctx name cli _ st0 (setField stm f (.vs v2)) remm hrefl hscan
        (by rw [setField_vals]; exact hA) (by rw [setField_vals]; exact hH)]
      rfl
    · exact lookupStr_setVal_self _ hkey

theorem C10_last_occurrence_wins_witness :
    runSubcommand ctxPlain "prog" cliInt ([] ++ ("--count" :: "1" :: ([] ++ ["--count", "2"]))) =
      { code := 0, diags := stInt.diags,
        probes := stInt.probes, vals := setVal "Count" (.vi 2) stInt.vals,
        argsField := some [], panicMsg := none } ∧
    lookupStr "Count" (setVal "Count" (.vi 2) stInt.vals) = some (.vi 2) :=
  (C10_last_occurrence_wins ctxPlain "prog" cliInt).1 [] [] "--count" "--count" "Count"
    "1" "2" 1 2 stInt stInt (setOpt stInt "--count" (.vi 1)) [] []
    (by rw [runReflect.eq_def]; decide) (scanTokens.eq_1 ctxPlain cliInt stInt false [])
    (by decide) (resolveAlias_found (by decide)) (by decide)
    (scanTokens.eq_1 ctxPlain cliInt _ false []) (resolveAlias_found (by decide)) (by decide)
    (by decide) (by decide) (by decide) (by decide)



/-- C3: when a scanned plain token exactly matches a registered subcommand
name — looked up first among visible, then among hidden subcommands — the
scanner hands all remaining tokens to a recursive `runSubcommand` invocation
of that child schema and the parent's outcome is the child's (with the
parent's diagnostics and probe counts accumulated); and a hidden subcommand
is dispatchable while being absent from the rendered subcommand table. -/
theorem C3_subcommand_dispatch
    (ctx : Ctx) (name : String) (cli : Cli) :
    (∀ (front rest : List String) (t : String) (child : Cli) (st0 st1 : RState)
      (rem1 : List String),
      runReflect ctx cli = .ok st0 →
      scanTokens ctx cli st0 false [] front = .done st1 rem1 →
      headDash t = false →
      dispatchLookup cli t = some child →
      runSubcommand ctx name cli (front ++ t :: rest) =
        (let o := runSubcommand ctx (name ++ " " ++ t) child rest
         { o with probes := st1.probes + o.probes, diags := st1.diags ++ o.diags })) ∧
    (∀ (h : String) (c : Cli),
      lookupStr h cli.subcommands = none →
      lookupStr h cli.hiddenSubcommands = some c →
      dispatchLookup cli h = some c ∧ h ∉ subcommandTable cli) := by
  constructor
  · intro front rest t child st0 st1 rem1 hrefl hfront hhd hdl
    have hscan : scanTokens ctx cli st0 false [] (front ++ t :: rest) =
        .dispatchTo t rest st1 := by
      rw [scanTokens_append ctx cli (t :: rest) front st0 false [] st1 rem1 hfront]
      rw [scanTokens.eq_2, scanStep_dispatchCase hhd hdl]
    exact runSubcommand_dispatch ctx name cli _ st0 st1 t rest child hrefl hscan hdl
  · intro h c hv hh
    refine ⟨?_, ?_⟩
    · simp [dispatchLookup, hv, hh]
    · intro hmem
      rw [subcommandTable] at hmem
      have hs := mem_keys_lookupStr (mem_sortStrings.mp hmem)
      rw [hv] at hs
      simp at hs

theorem C3_subcommand_dispatch_witness :
    (runSubcommand ctxPlain "prog" cliPar ([] ++ "hid" :: []) =
      (let o := runSubcommand ctxPlain ("prog" ++ " " ++ "hid") cliX []
       { o with probes := (initRState cliPar).probes + o.probes, diags := (initRState cliPar).diags ++ o.diags })) ∧
    dispatchLookup cliPar "hid" = some cliX ∧ "hid" ∉ subcommandTable cliPar := by
  refine ⟨?_, ?_, ?_⟩
  · exact (C3_subcommand_dispatch ctxPlain "prog" cliPar).1 [] [] "hid" cliX
      (initRState cliPar) (initRState cliPar) [] (by rfl)
      (scanTokens.eq_1 ctxPlain cliPar (initRState cliPar) false []) (by decide) (by rfl)
  · exact ((C3_subcommand_dispatch ctxPlain "prog" cliPar).2 "hid" cliX (by rfl) (by rfl)).1
  · exact ((C3_subcommand_dispatch ctxPlain "prog" cliPar).2 "hid" cliX (by rfl) (by rfl)).2



/-- For a single requirement tag, `reqCheck` accepts exactly the values
satisfying that tag's acceptance condition. -/
theorem reqCheck_single_ok (ctx : Ctx) (req n v : String)
    (hreq : req = "dir" ∨ req = "dirorfile" ∨ req = "file") :
    reqCheck ctx [req] n v = none ↔ reqAccepts ctx req v := by
  rcases hreq with h | h | h <;> subst h
  · by_cases hfs : ctx.fs v = some true <;> simp [reqCheck, reqAccepts, hfs]
  · cases hN : (ctx.fs v).isNone <;> simp [reqCheck, reqAccepts, hN]
  · by_cases hfs : ctx.fs v = some false <;> simp [reqCheck, reqAccepts, hfs]

/-- For a single requirement tag, a value failing the tag's acceptance
condition makes `reqCheck` produce that tag's message. -/
theorem reqCheck_single_fail (ctx : Ctx) (req n v : String)
    (hreq : req = "dir" ∨ req = "dirorfile" ∨ req = "file")
    (hfs : ¬ reqAccepts ctx req v) :
    reqCheck ctx [req] n v = some (reqFailMsg req n v) := by
  rcases hreq with h | h | h <;> subst h
  · have hfs2 : ¬ ctx.fs v = some true := by simpa [reqAccepts] using hfs
    simp [reqCheck, reqFailMsg, hfs2]
  · have hfs2 : (ctx.fs v).isNone = true := by
      cases hN : (ctx.fs v).isNone
      · exact absurd hN (by simpa [reqAccepts] using hfs)
      · rfl
    simp [reqCheck, reqFailMsg, hfs2]
  · have hfs2 : ¬ ctx.fs v = some false := by simpa [reqAccepts] using hfs
    simp [reqCheck, reqFailMsg, hfs2]

/-- C4: the filesystem check of a string option carrying a requirement
(`dir`, `dirorfile`, or `file`) is applied at the moment the value is set,
whatever its origin.  Conjunct 1: for each of the three requirement kinds,
`reqCheck` accepts exactly the values meeting that kind's condition and
rejects anything else with that kind's option-and-value-naming message; in
particular "must be file" accepts exactly paths that exist and are not
directories.  Conjuncts 2-4: for each kind, an offending path coming from
an environment default, a literal default, or an explicit command-line
value fails identically — same diagnostic, exit code 1, and the bound
storage left unwritten. -/
theorem C4_requirement_uniform
    (ctx : Ctx) (name fieldName aliasTag envName lit pv req : String) (v0 : Val)
    (fn : List (String × Val) → List String → Int)
    (hexp : isExportedStr fieldName = true)
    (hat : aliasTag ≠ "")
    (hsa : splitComma aliasTag = [aliasTag])
    (hreq : req = "dir" ∨ req = "dirorfile" ∨ req = "file") :
    (∀ n v,
      (reqCheck ctx [req] n v = none ↔ reqAccepts ctx req v) ∧
      (¬ reqAccepts ctx req v → reqCheck ctx [req] n v = some (reqFailMsg req n v)) ∧
      (reqCheck ctx ["file"] n v = none ↔ ctx.fs v = some false)) ∧
    (splitComma ("env:" ++ envName) = ["env:" ++ envName] →
      ctx.env envName = some pv →
      ¬ reqAccepts ctx req pv →
      runSubcommand ctx name
        (oneOptCli fieldName aliasTag ("env:" ++ envName) req "string" v0 fn) [] =
        { code := 1, diags := [reqFailMsg req (normAlias aliasTag) pv],
          probes := 0, vals := [(fieldName, v0)], argsField := none, panicMsg := none }) ∧
    (splitComma lit = [lit] → lit ≠ "" → hasPref lit "env:" = false → lit ≠ "terminal" →
      ¬ reqAccepts ctx req lit →
      runSubcommand ctx name
        (oneOptCli fieldName aliasTag lit req "string" v0 fn) [] =
        { code := 1, diags := [reqFailMsg req (normAlias aliasTag) lit],
          probes := 0, vals := [(fieldName, v0)], argsField := none, panicMsg := none }) ∧
    (¬ reqAccepts ctx req pv →
      runSubcommand ctx name
        (oneOptCli fieldName aliasTag "" req "string" v0 fn) [normAlias aliasTag, pv] =
        { code := 1, diags := [reqFailMsg req (normAlias aliasTag) pv],
          probes := 0, vals := [(fieldName, v0)], argsField := none, panicMsg := none }) := by
  have hbs : buildReqSet (splitComma req) = [req] := by
    rcases hreq with h | h | h <;> subst h <;> rfl
  have hrh2 : ∃ rh, buildReqsHelp (splitComma req) = .ok rh := by
    rcases hreq with h | h | h <;> subst h
    · exact ⟨["must be a directory"], rfl⟩
    · exact ⟨["must be a directory or file"], rfl⟩
    · exact ⟨["must be a file"], rfl⟩
  obtain ⟨rh, hrh⟩ := hrh2
  refine ⟨?_, ?_, ?_, ?_⟩
  · intro n v
    refine ⟨reqCheck_single_ok ctx req n v hreq,
      fun hfs => reqCheck_single_fail ctx req n v hreq hfs, ?_⟩
    by_cases hfs : ctx.fs v = some false <;> simp [reqCheck, hfs]
  · intro hsd henv hfs
    obtain ⟨txt, hrefl⟩ := runReflect_oneOpt ctx fieldName aliasTag ("env:" ++ envName)
      req "string" v0 fn rh (Or.inr (Or.inr rfl)) hexp hat hsa hrh
    have h1 : ("env:" ++ envName) ≠ "" := append_ne_empty _ _ (by decide)
    have h2 : hasPref ("env:" ++ envName) "env:" = true := hasPref_append _ _
    have h3 : dropStr ("env:" ++ envName) 4 = envName := dropStr_env _
    have hrc : reqCheck ctx (buildReqSet (splitComma req)) (normAlias aliasTag) pv =
        some (reqFailMsg req (normAlias aliasTag) pv) := by
      rw [hbs]
      exact reqCheck_single_fail ctx req _ pv hreq hfs
    have hAD : applyDefaults ctx (normAlias aliasTag) "string" fieldName
        (buildReqSet (splitComma req)) ("env:" ++ envName) (splitComma ("env:" ++ envName))
        (oneOptSt1 fieldName aliasTag req "string" v0) =
        .fail (addDiag (oneOptSt1 fieldName aliasTag req "string" v0)
          (reqFailMsg req (normAlias aliasTag) pv)) := by
      rw [hsd]
      simp [applyDefaults, h1, h2, h3, henv, hrc]
    rw [hAD] at hrefl
    dsimp only [] at hrefl
    rw [runSubcommand_failReflect ctx name _ [] _ hrefl]
    rfl
  · intro hsd hlitne hlitenv hlitterm hfs
    obtain ⟨txt, hrefl⟩ := runReflect_oneOpt ctx fieldName aliasTag lit
      req "string" v0 fn rh (Or.inr (Or.inr rfl)) hexp hat hsa hrh
    have hrc : reqCheck ctx (buildReqSet (splitComma req)) (normAlias aliasTag) lit =
        some (reqFailMsg req (normAlias aliasTag) lit) := by
      rw [hbs]
      exact reqCheck_single_fail ctx req _ lit hreq hfs
    have hAD : applyDefaults ctx (normAlias aliasTag) "string" fieldName
        (buildReqSet (splitComma req)) lit (splitComma lit)
        (oneOptSt1 fieldName aliasTag req "string" v0) =
        .fail (addDiag (oneOptSt1 fieldName aliasTag req "string" v0)
          (reqFailMsg req (normAlias aliasTag) lit)) := by
      rw [hsd]
      simp [applyDefaults, hlitne, hlitenv, hlitterm, hrc]
    rw [hAD] at hrefl
    dsimp only [] at hrefl
    rw [runSubcommand_failReflect ctx name _ [] _ hrefl]
    rfl
  · intro hfs
    obtain ⟨txt, hrefl⟩ := runReflect_oneOpt ctx fieldName aliasTag ""
      req "string" v0 fn rh (Or.inr (Or.inr rfl)) hexp hat hsa hrh
    have hAD : applyDefaults ctx (normAlias aliasTag) "string" fieldName
        (buildReqSet (splitComma req)) "" (splitComma "")
        (oneOptSt1 fieldName aliasTag req "string" v0) =
        .ok (oneOptSt1 fieldName aliasTag req "string" v0) := by
      simp [applyDefaults]
    rw [hAD] at hrefl
    dsimp only [] at hrefl
    have htyOk : (appendHelpRow false "string" [oneOptHelpName aliasTag "string"] txt
        (oneOptSt1 fieldName aliasTag req "string" v0)).optionTypes
        = [(normAlias aliasTag, "string")] := by
      rw [appendHelpRow_optionTypes]
      rfl
    have hres : resolveAlias (appendHelpRow false "string" [oneOptHelpName aliasTag "string"] txt
        (oneOptSt1 fieldName aliasTag req "string" v0)).optionTypes (normAlias aliasTag)
        = (normAlias aliasTag, some "string") := by
      rw [htyOk]
      exact resolveAlias_found (by simp [lookupStr])
    have hrc : reqCheck ctx ((lookupStr (normAlias aliasTag)
        (appendHelpRow false "string" [oneOptHelpName aliasTag "string"] txt
          (oneOptSt1 fieldName aliasTag req "string" v0)).optionReqs).getD [])
        (normAlias aliasTag) pv =
        some (reqFailMsg req (normAlias aliasTag) pv) := by
      rw [appendHelpRow_optionReqs, show (oneOptSt1 fieldName aliasTag req "string" v0).optionReqs
        = [(normAlias aliasTag, buildReqSet (splitComma req))] from rfl, hbs]
      simp only [lookupStr, if_pos rfl, Option.getD_some]
      exact reqCheck_single_fail ctx req _ pv hreq hfs
    have hscan : scanTokens ctx (oneOptCli fieldName aliasTag "" req "string" v0 fn)
        (appendHelpRow false "string" [oneOptHelpName aliasTag "string"] txt
          (oneOptSt1 fieldName aliasTag req "string" v0)) false []
        [normAlias aliasTag, pv] =
        .errored (addDiag (appendHelpRow false "string" [oneOptHelpName aliasTag "string"] txt
          (oneOptSt1 fieldName aliasTag req "string" v0))
          (reqFailMsg req (normAlias aliasTag) pv)) := by
      rw [scanTokens.eq_2, scanStep_stringReqFail (headDash_normAlias _) hres hrc]
    rw [runSubcommand_errored ctx name _ _ _ _ hrefl hscan]
    have hdg : (appendHelpRow false "string" [oneOptHelpName aliasTag "string"] txt
        (oneOptSt1 fieldName aliasTag req "string" v0)).diags = [] := by
      rw [appendHelpRow_diags]
      rfl
    have hv : (appendHelpRow false "string" [oneOptHelpName aliasTag "string"] txt
        (oneOptSt1 fieldName aliasTag req "string" v0)).vals = [(fieldName, v0)] := by
      rw [appendHelpRow_vals]
      rfl
    have hp : (appendHelpRow false "string" [oneOptHelpName aliasTag "string"] txt
        (oneOptSt1 fieldName aliasTag req "string" v0)).probes = 0 := by
      rw [appendHelpRow_probes]
      rfl
    simp [Outcome.mk.injEq, addDiag, hdg, hv, hp]



theorem C4_requirement_uniform_witness :
    runSubcommand ctxC4 "prog"
      (oneOptCli "HeaderFile" "header-file" ("env:" ++ "GLH") "dir" "string" (.vs "")
        (fun _ _ => 0)) [] =
      { code := 1, diags := [reqFailMsg "dir" (normAlias "header-file") "/nope"],
        probes := 0, vals := [("HeaderFile", .vs "")], argsField := none, panicMsg := none } ∧
    runSubcommand ctxC4 "prog"
      (oneOptCli "HeaderFile" "header-file" "/nope" "dirorfile" "string" (.vs "")
        (fun _ _ => 0)) [] =
      { code := 1, diags := [reqFailMsg "dirorfile" (normAlias "header-file") "/nope"],
        probes := 0, vals := [("HeaderFile", .vs "")], argsField := none, panicMsg := none } ∧
    runSubcommand ctxC4 "prog"
      (oneOptCli "HeaderFile" "header-file" "" "file" "string" (.vs "")
        (fun _ _ => 0)) [normAlias "header-file", "/nope"] =
      { code := 1, diags := [reqFailMsg "file" (normAlias "header-file") "/nope"],
        probes := 0, vals := [("HeaderFile", .vs "")], argsField := none, panicMsg := none } := by
  refine ⟨?_, ?_, ?_⟩
  · exact (C4_requirement_uniform ctxC4 "prog" "HeaderFile" "header-file" "GLH" "/seed" "/nope"
      "dir" (.vs "") (fun _ _ => 0) (by decide) (by decide) (by decide) (Or.inl rfl)).2.1
      (by decide) rfl (by simp [reqAccepts, ctxC4])
  · exact (C4_requirement_uniform ctxC4 "prog" "HeaderFile" "header-file" "GLH" "/nope" "/seed"
      "dirorfile" (.vs "") (fun _ _ => 0) (by decide) (by decide) (by decide)
      (Or.inr (Or.inl rfl))).2.2.1
      (by decide) (by decide) (by decide) (by decide) (by simp [reqAccepts, ctxC4])
  · exact (C4_requirement_uniform ctxC4 "prog" "HeaderFile" "header-file" "GLH" "/seed" "/nope"
      "file" (.vs "") (fun _ _ => 0) (by decide) (by decide) (by decide)
      (Or.inr (Or.inr rfl))).2.2.2
      (by simp [reqAccepts, ctxC4])



/-- C6 (counterexample): one top-level invocation that reaches a subcommand
probes the terminal twice — once per command level — because the memo (`tty`)
is a per-level local; the claim's at-most-one-probe-per-invocation bound is
violated. -/
theorem C6_probe_per_level_cex :
    (runSubcommand ctx6 "prog" root6 ["sub"]).probes = 2 := by
  rw [runSubcommand.eq_def]
  change 1 + (runSubcommand ctx6 ("prog" ++ " " ++ "sub") sub6 []).probes = 2
  rw [runSubcommand.eq_def]
  decide

/-- C6 (amended): within one command level the terminal probe is memoized —
the first terminal-source default probes once and records the result in the
level's `tty` memo, and every later terminal-source default at that level
reuses the memo without probing again; each level reached by subcommand
recursion starts with a fresh memo. -/
theorem C6_terminal_memo_per_level
    (ctx : Ctx) (A f : String) (reqs : List String) (tag : String) (st : RState) :
    (st.tty = 0 →
      applyDefaults ctx A "bool" f reqs tag ["terminal"] st =
        .ok (setField { st with tty := if ctx.isTerminal then 1 else -1, probes := st.probes + 1 } f (.vb ctx.isTerminal))) ∧
    (st.tty ≠ 0 →
      applyDefaults ctx A "bool" f reqs tag ["terminal"] st =
        .ok (setField st f (.vb (st.tty = 1)))) := by
  constructor
  · intro h0
    cases h : ctx.isTerminal <;> simp [applyDefaults, h0, h, (by decide : hasPref "terminal" "env:" = false)]
  · intro hne
    simp [applyDefaults, hne, (by decide : hasPref "terminal" "env:" = false)]

theorem C6_terminal_memo_per_level_witness :
    applyDefaults ctx6 "--color" "bool" "Color" [] "terminal" ["terminal"] (initRState root6) =
      .ok (setField { initRState root6 with tty := if ctx6.isTerminal then 1 else -1, probes := (initRState root6).probes + 1 } "Color" (.vb ctx6.isTerminal)) ∧
    applyDefaults ctx6 "--color" "bool" "Color" [] "terminal" ["terminal"]
      { initRState root6 with tty := 1 } =
      .ok (setField { initRState root6 with tty := 1 } "Color" (.vb true)) := by
  constructor
  · exact (C6_terminal_memo_per_level ctx6 "--color" "Color" [] "terminal"
      (initRState root6)).1 (by decide)
  · exact (C6_terminal_memo_per_level ctx6 "--color" "Color" [] "terminal"
      { initRState root6 with tty := 1 }).2 (by decide)



end Sealeye
namespace Sealeye

/-- An embedded-group field whose storage name is declared directly on the
node is skipped entirely by the extractor. -/
theorem reflectField_skip_shadowed (ctx : Ctx) (topFields : List String)
    (s : Bool) (fld : StructField) (st : RState)
    (h : topFields.contains fld.fname = true) :
    reflectField ctx topFields s fld true st = .ok st := by
  unfold reflectField
  have h1 : (true = true ∧ topFields.contains fld.fname = true) := ⟨rfl, h⟩
  rw [if_pos h1]

/-- A non-embedded field with an empty option tag is skipped by the
extractor. -/
theorem reflectField_skip_noTag (ctx : Ctx) (topFields : List String)
    (s : Bool) (fld : StructField) (st : RState)
    (hexp : isExportedStr fld.fname = true) (ht : fld.optionTag = "") :
    reflectField ctx topFields s fld false st = .ok st := by
  unfold reflectField
  have h1 : ¬ (false = true ∧ topFields.contains fld.fname = true) :=
    fun hc => absurd hc.1 (by decide)
  have h2 : ¬ ¬ isExportedStr fld.fname = true := fun hc => hc hexp
  rw [if_neg h1, if_neg h2, if_pos ht]

/-- On a non-embedded field the extractor never consults the top-level name
list. -/
theorem reflectField_topFields (ctx : Ctx) (tf1 tf2 : List String)
    (s : Bool) (fld : StructField) (st : RState) :
    reflectField ctx tf1 s fld false st = reflectField ctx tf2 s fld false st := by
  unfold reflectField
  have h1 : ¬ (false = true ∧ tf1.contains fld.fname = true) :=
    fun hc => absurd hc.1 (by decide)
  have h2 : ¬ (false = true ∧ tf2.contains fld.fname = true) :=
    fun hc => absurd hc.1 (by decide)
  rw [if_neg h1, if_neg h2]

/-- Dropping a skipped field from the front of the extraction fold. -/
theorem reflectFold_skip_cons (ctx : Ctx) (tf : List String) (s : Bool)
    (f : StructField) (emb : Bool) (rest : List (StructField × Bool)) (st : RState)
    (h : reflectField ctx tf s f emb st = .ok st) :
    reflectFold ctx tf s ((f, emb) :: rest) st = reflectFold ctx tf s rest st := by
  simp only [reflectFold]
  rw [h]

/-- The extraction fold over a single field. -/
theorem reflectFold_single (ctx : Ctx) (tf : List String) (s : Bool)
    (f : StructField) (emb : Bool) (st : RState) :
    reflectFold ctx tf s [(f, emb)] st =
      match reflectField ctx tf s f emb st with
      | .ok stA => .ok stA
      | .fail stA => .fail stA
      | .panicked m stA => .panicked m stA := by
  simp only [reflectFold]
  cases reflectField ctx tf s f emb st <;> rfl

end Sealeye
namespace Sealeye

/-- C7: a field declared directly on a command node shadows a same-named
field contributed by an embedded option group: the extractor skips the
nested field entirely, only the direct field yields a descriptor and a help
row, and both traversal orders (group before or after the direct field)
produce the identical extraction result. -/
theorem C7_shadow_override
    (ctx : Ctx) (n aliasN aliasD helpN helpD kN kD : String) (v0 : Val)
    (fn : List (String × Val) → List String → Int)
    (hexp : isExportedStr n = true)
    (hk : kD = "bool" ∨ kD = "int" ∨ kD = "string")
    (haD : aliasD ≠ "")
    (hsaD : splitComma aliasD = [aliasD])
    (hnah : oneOptHelpName aliasD kD ≠ "--all-help") :
    runReflect ctx (cliShadowA n aliasN aliasD helpN helpD kN kD v0 fn) =
      runReflect ctx (cliShadowB n aliasN aliasD helpN helpD kN kD v0 fn) ∧
    ∃ st txt,
      runReflect ctx (cliShadowA n aliasN aliasD helpN helpD kN kD v0 fn) = .ok st ∧
      st.optionTypes = [(normAlias aliasD, kD)] ∧
      st.optionBinds = [(normAlias aliasD, n)] ∧
      st.optionHelpData = [["", oneOptHelpName aliasD kD, txt]] ∧
      st.multiHelpData = [] ∧
      st.vals = [(n, v0)] := by
  have hcontA : (["Group", n] : List String).contains n = true := by simp
  have hcontB : ([n, "Group"] : List String).contains n = true := by simp
  have hflatA : flattenFields (cliShadowA n aliasN aliasD helpN helpD kN kD v0 fn).fields =
      [(StructField.mk n aliasN helpN "" "" kN Fields.nil, true),
       (StructField.mk "Group" "" "" "" "" "struct"
         (fieldsOf [StructField.mk n aliasN helpN "" "" kN Fields.nil]), false),
       (StructField.mk n aliasD helpD "" "" kD Fields.nil, false)] := by
    simp [cliShadowA, Cli.fields, flattenFields, flattenOne, flattenSub, fieldsOf,
      StructField.kindStr, ite_self]
  have hflatB : flattenFields (cliShadowB n aliasN aliasD helpN helpD kN kD v0 fn).fields =
      [(StructField.mk n aliasD helpD "" "" kD Fields.nil, false),
       (StructField.mk n aliasN helpN "" "" kN Fields.nil, true),
       (StructField.mk "Group" "" "" "" "" "struct"
         (fieldsOf [StructField.mk n aliasN helpN "" "" kN Fields.nil]), false)] := by
    simp [cliShadowB, Cli.fields, flattenFields, flattenOne, flattenSub, fieldsOf,
      StructField.kindStr, ite_self]
  have htfA : (cliShadowA n aliasN aliasD helpN helpD kN kD v0 fn).fields.map
      StructField.fname = ["Group", n] := by
    simp [cliShadowA, Cli.fields, StructField.fname]
  have htfB : (cliShadowB n aliasN aliasD helpN helpD kN kD v0 fn).fields.map
      StructField.fname = [n, "Group"] := by
    simp [cliShadowB, Cli.fields, StructField.fname]
  have hsubA : (!(cliShadowA n aliasN aliasD helpN helpD kN kD v0 fn).subcommands.isEmpty)
      = false := by simp [cliShadowA, Cli.subcommands]
  have hsubB : (!(cliShadowB n aliasN aliasD helpN helpD kN kD v0 fn).subcommands.isEmpty)
      = false := by simp [cliShadowB, Cli.subcommands]
  have hst0 : initRState (cliShadowB n aliasN aliasD helpN helpD kN kD v0 fn) =
      initRState (cliShadowA n aliasN aliasD helpN helpD kN kD v0 fn) := rfl
  have hskipG : ∀ (tf : List String) (st : RState),
      reflectField ctx tf false (StructField.mk "Group" "" "" "" "" "struct"
        (fieldsOf [StructField.mk n aliasN helpN "" "" kN Fields.nil])) false st = .ok st :=
    fun tf st => reflectField_skip_noTag ctx tf false
      (StructField.mk "Group" "" "" "" "" "struct"
        (fieldsOf [StructField.mk n aliasN helpN "" "" kN Fields.nil])) st (show isExportedStr "Group" = true by decide) rfl
  have hredA : runReflect ctx (cliShadowA n aliasN aliasD helpN helpD kN kD v0 fn) =
      reflectFold ctx ["Group", n] false
        [(StructField.mk n aliasD helpD "" "" kD Fields.nil, false)]
        (initRState (cliShadowA n aliasN aliasD helpN helpD kN kD v0 fn)) := by
    unfold runReflect
    rw [htfA, hsubA, hflatA,
      reflectFold_skip_cons _ _ _ _ _ _ _ (reflectField_skip_shadowed _ _ _ _ _ hcontA),
      reflectFold_skip_cons _ _ _ _ _ _ _ (hskipG _ _)]
  have htailB : ∀ stA : RState, reflectFold ctx [n, "Group"] false
      [(StructField.mk n aliasN helpN "" "" kN Fields.nil, true),
       (StructField.mk "Group" "" "" "" "" "struct"
         (fieldsOf [StructField.mk n aliasN helpN "" "" kN Fields.nil]), false)] stA
      = .ok stA := by
    intro stA
    rw [reflectFold_skip_cons _ _ _ _ _ _ _ (reflectField_skip_shadowed _ _ _ _ _ hcontB),
      reflectFold_skip_cons _ _ _ _ _ _ _ (hskipG _ _)]
    rfl
  have hredB : runReflect ctx (cliShadowB n aliasN aliasD helpN helpD kN kD v0 fn) =
      match reflectField ctx [n, "Group"] false
          (StructField.mk n aliasD helpD "" "" kD Fields.nil) false
          (initRState (cliShadowA n aliasN aliasD helpN helpD kN kD v0 fn)) with
      | .ok stA => .ok stA
      | .fail stA => .fail stA
      | .panicked m stA => .panicked m stA := by
    unfold runReflect
    rw [htfB, hsubB, hflatB, hst0]
    simp only [reflectFold]
    cases h : reflectField ctx [n, "Group"] false
        (StructField.mk n aliasD helpD "" "" kD Fields.nil) false
        (initRState (cliShadowA n aliasN aliasD helpN helpD kN kD v0 fn)) with
    | ok stA => exact htailB stA
    | fail stA => rfl
    | panicked m stA => rfl
  constructor
  · rw [hredA, hredB, reflectFold_single,
      reflectField_topFields ctx ["Group", n] [n, "Group"]]
  · rw [hredA, reflectFold_single]
    have hbr : buildReqsHelp [""] = .ok ([] : List String) := rfl
    have hbd : buildDefaultsHelp [""] = ([] : List String) := rfl
    have hbs : buildReqSet [""] = ([] : List String) := rfl
    have hsd : splitComma "" = [""] := rfl
    rcases hk with hk | hk | hk <;> subst hk <;>
    · simp [oneOptHelpName] at hnah
      simp [reflectField, StructField.fname, StructField.optionTag,
        StructField.kindStr, StructField.defaultTag, StructField.requiredTag,
        StructField.helpTag, classifyKind, hexp, haD, hnah, hbr, hbd, hbs, hsd, hsaD,
        processAliases, applyDefaults, appendHelpRow, initRState, cliShadowA,
        Cli.vals, oneOptHelpName]
      try exact ⟨_, rfl, rfl, rfl, ⟨_, rfl⟩, rfl, rfl⟩


theorem C7_shadow_override_witness :
    isExportedStr "Verbose" = true ∧
    (runReflect ctxPlain
        (cliShadowA "Verbose" "verbose" "v" "x" "y" "bool" "bool" (.vb false) (fun _ _ => 0)) =
      runReflect ctxPlain
        (cliShadowB "Verbose" "verbose" "v" "x" "y" "bool" "bool" (.vb false) (fun _ _ => 0)) ∧
    ∃ st txt,
      runReflect ctxPlain
        (cliShadowA "Verbose" "verbose" "v" "x" "y" "bool" "bool" (.vb false) (fun _ _ => 0))
        = .ok st ∧
      st.optionTypes = [(normAlias "v", "bool")] ∧
      st.optionBinds = [(normAlias "v", "Verbose")] ∧
      st.optionHelpData = [["", oneOptHelpName "v" "bool", txt]] ∧
      st.multiHelpData = [] ∧
      st.vals = [("Verbose", Val.vb false)]) :=
  ⟨by decide, C7_shadow_override ctxPlain "Verbose" "verbose" "v" "x" "y" "bool" "bool"
    (.vb false) (fun _ _ => 0) (by decide) (Or.inl rfl) (by decide) rfl (by decide)⟩

end Sealeye
